import Mathlib

/-!
# Medication tracker hub (`server.go`): embedding and checked properties

The Go program keeps two global maps keyed by the websocket connection
(`clients`, `devices`), guarded by `clientsMutex`, appends medication events to
a log file, and parses chunks read from a serial port.

Conventions of the embedding

* A Go `string` is a Lean `String`.  The helpers `contains` and `splitString`
  index a Go string by byte; here they index the list of characters, so that a
  Go byte string is read with one character per byte.  `splitLines` ranges over
  runes, which is exactly the character list of a Lean string.
* A Go map is an association list with unique keys (`AList`).  Go leaves the
  iteration order of a map unspecified; the order of the association list is
  one possible order, and statements about `getDevicesList` are made up to
  permutation.
* `time.Now()` and the outcome of every `WriteJSON` call are inputs of the
  functions that use them.
* `encoding/json` and `time.Format` are not part of the program; they are the
  fields of `StdLib`, a parameter of the functions that call them.
* Every section of code that runs between `clientsMutex.Lock()` and the matching
  `Unlock()` is one function on `World`.  The functions named after the Go
  functions compose these sections in program order, which is the run in which
  no other goroutine is scheduled in between; other runs are written as the
  sections in the order in which they take the mutex.
-/

namespace MedTracker

/-! ## Data model -/

/-- The pointer `*websocket.Conn`, used as map key. -/
abbrev Conn := Nat

/-- An instant (`time.Time`). -/
abbrev Time := Int

/-- Go `type Device struct`. -/
structure Device where
  DeviceID : String
  IP : String
  Type_ : String
  ConnectedAt : Time
  deriving DecidableEq, Repr

/-- Go `type MedicationEvent struct`. -/
structure MedicationEvent where
  Type_ : String
  Medication : String
  Timestamp : Time
  DeviceID : String
  ServerTime : Time
  deriving DecidableEq, Repr

/-- Go `type WebSocketMessage struct`; `Devices` is `interface{}` in Go and holds
either nothing or the slice returned by `getDevicesList`. -/
structure WebSocketMessage where
  Type_ : String := ""
  Medication : String := ""
  Timestamp : String := ""
  DeviceID : String := ""
  Status : String := ""
  Message : String := ""
  Devices : Option (List Device) := none
  IP : String := ""
  SimulatedBy : String := ""
  deriving DecidableEq, Repr

/-- One call of `conn.WriteJSON(message)` and whether it returned without error. -/
structure WriteRecord where
  conn : Conn
  message : WebSocketMessage
  ok : Bool
  deriving DecidableEq, Repr

/-- The library functions the program calls: `json.Marshal` and `json.Unmarshal`
at type `MedicationEvent`, and `Time.Format(time.RFC3339)`. -/
structure StdLib where
  marshal : MedicationEvent → Option String
  unmarshal : String → Option MedicationEvent
  formatRFC3339 : Time → String

/-- The global variables of the program (`clients`, `devices`, `hasSerialPort`),
the log file (`none` when the file does not exist), and a record of the effects
on connections: `closed` lists the connections on which the server called
`Close`, `writes` lists the `WriteJSON` calls in order, `loops` lists the
connections whose `handleClientMessages` goroutine has been started and has not
yet run its deferred cleanup. -/
structure World where
  clients : AList (fun _ : Conn => Bool)
  devices : AList (fun _ : Conn => Device)
  hasSerialPort : Bool
  logFile : Option String
  closed : List Conn
  writes : List WriteRecord
  loops : List Conn

/-- The state at process start: empty maps, no log file. -/
def World.init (serial : Bool) : World :=
  { clients := ∅, devices := ∅, hasSerialPort := serial, logFile := none,
    closed := [], writes := [], loops := [] }

/-! ## String helpers (`contains`, `splitString`, `splitLines`) -/

/-- Go `contains`: the loop over `i` returns `true` at the first `i` with
`i+len(substr) <= len(s) && s[i:i+len(substr)] == substr`. -/
def contains (s substr : String) : Bool :=
  (List.range s.data.length).any fun i =>
    decide (i + substr.data.length ≤ s.data.length) &&
      decide ((s.data.drop i).take substr.data.length = substr.data)

/-- The `for` loop of Go `splitString`, with loop variable `i` and the locals
`start` and `result`.  After a match the Go code sets `i += len(delim) - 1` and
the loop header adds one, so the next index is `i + len(delim)`.  The first
argument bounds the number of iterations; `none` means the bound was reached. -/
def splitStringLoop (s delim : List Char) :
    Nat → Nat → Nat → List String → Option (List String × Nat)
  | 0, _, _, _ => none
  | fuel + 1, i, start, result =>
    if i < s.length then
      if i + delim.length ≤ s.length ∧ (s.drop i).take delim.length = delim then
        splitStringLoop s delim fuel (i + delim.length) (i + delim.length)
          (result ++ [String.mk ((s.drop start).take (i - start))])
      else
        splitStringLoop s delim fuel (i + 1) start result
    else some (result, start)

/-- Go `splitString`: the loop, then the final `if start < len(s)`.  With a
non-empty delimiter the loop ends within `len(s) + 1` iterations. -/
def splitString (s delim : String) : Option (List String) :=
  match splitStringLoop s.data delim.data (s.data.length + 1) 0 0 [] with
  | none => none
  | some (result, start) =>
    if start < s.data.length then some (result ++ [String.mk (s.data.drop start)])
    else some result

/-- The `for _, r := range s` loop of Go `splitLines` on the locals `lines` and
`line`. -/
def splitLinesLoop : List Char → List String → String → List String × String
  | [], lines, line => (lines, line)
  | r :: rest, lines, line =>
    if r = '\n' then splitLinesLoop rest (lines ++ [line]) ""
    else splitLinesLoop rest lines (line ++ String.mk [r])

/-- Go `splitLines`. -/
def splitLines (s : String) : List String :=
  match splitLinesLoop s.data [] "" with
  | (lines, line) => if line ≠ "" then lines ++ [line] else lines

/-- Tokens that the loop of `splitString` still produces when `cur` is the text
read since the last colon and `rest` is the unread text. -/
def colonTokens : List Char → List Char → List String
  | cur, [] => if cur = [] then [] else [String.mk cur]
  | cur, ch :: rest =>
    if ch = ':' then String.mk cur :: colonTokens [] rest
    else colonTokens (cur ++ [ch]) rest

/-! ## Serial bridge (`readSerial`) -/

/-- The body of the `if n > 0` block of Go `readSerial` for one chunk `data` read
from the port: the list of calls `broadcastMedicationTaken(medName, deviceID)`
it makes, as pairs `(medName, deviceID)`.  `none` only if `splitString` did not
return. -/
def readSerialChunk (data : String) : Option (List (String × String)) :=
  if data.data.length > 0 then
    if contains data "MEDICATION_TAKEN" then
      if contains data ":" then
        match splitString data ":" with
        | none => none
        | some parts =>
          if parts.length > 1 then some [(parts.getD 1 "", "arduino")]
          else some [("", "arduino")]
      else some [("", "arduino")]
    else some []
  else some []

/-! ## Connection registry and broadcast hub -/

/-- The placeholder written by `handleWebSocket` (lines 181-187). -/
def placeholderDevice (clientIP : String) (unix : Int) (now : Time) : Device :=
  { DeviceID := "client-" ++ toString unix, IP := clientIP, Type_ := "web", ConnectedAt := now }

/-- Go `handleWebSocket`, the section under `clientsMutex` (lines 177-188):
`clients[conn] = true` and `devices[conn] = &Device{...}`.  `unix` is
`time.Now().Unix()` and `now` the second `time.Now()`. -/
def register (w : World) (conn : Conn) (clientIP : String) (unix : Int) (now : Time) : World :=
  { w with
    clients := w.clients.insert conn true
    devices := w.devices.insert conn (placeholderDevice clientIP unix now) }

/-- Go `getDevicesList`: the values of `devices`, in iteration order. -/
def getDevicesList (w : World) : List Device :=
  w.devices.entries.map fun e => e.2

/-- The device written by the `device_connected` branch (lines 254-270), given
the ip that `devices[conn]` held before. -/
def identifiedDevice (msgDeviceID msgIP previousIP : String) (unix : Int) (now : Time) : Device :=
  { DeviceID := if msgDeviceID = "" then "device-" ++ toString unix else msgDeviceID
    IP := if msgIP = "" then previousIP else msgIP
    Type_ := "esp8266"
    ConnectedAt := now }

/-- Go `handleClientMessages`, case `device_connected`, the section under
`clientsMutex` (lines 253-271).  `devices[conn].IP` is read only when the
announced ip is empty; with no entry for `conn` that read dereferences a nil
pointer and the program panics, which is the result `none`. -/
def identify (w : World) (conn : Conn) (msgDeviceID msgIP : String) (unix : Int) (now : Time) :
    Option World :=
  if msgIP = "" then
    match w.devices.lookup conn with
    | none => none
    | some old =>
      some { w with
        devices := w.devices.insert conn (identifiedDevice msgDeviceID msgIP old.IP unix now) }
  else
    some { w with
      devices := w.devices.insert conn (identifiedDevice msgDeviceID msgIP "" unix now) }

/-- Go `handleClientMessages`, the deferred function up to `conn.Close()` (lines
217-226): reads `devices[conn]`, deletes `conn` from both maps, closes the
connection.  Returns the `deviceInfo` it read. -/
def unregister (w : World) (conn : Conn) : World × Option Device :=
  ({ w with
      clients := w.clients.erase conn
      devices := w.devices.erase conn
      closed := w.closed ++ [conn]
      loops := w.loops.erase conn },
    w.devices.lookup conn)

/-- The body of the `for client := range clients` loop of Go
`broadcastMessage`. -/
def sendTo (message : WebSocketMessage) (fails : Conn → Bool) (w : World) (client : Conn) :
    World :=
  if fails client then
    { w with
      writes := w.writes ++ [{ conn := client, message := message, ok := false }]
      closed := w.closed ++ [client]
      clients := w.clients.erase client
      devices := w.devices.erase client }
  else
    { w with writes := w.writes ++ [{ conn := client, message := message, ok := true }] }

/-- Go `broadcastMessage`: one pass over the keys of `clients` under
`clientsMutex`.  `fails client` tells whether `client.WriteJSON(message)` returns
an error.  The loop deletes only the key it is visiting, so it visits every key
that was in the map when it started, once. -/
def broadcastMessage (w : World) (message : WebSocketMessage) (fails : Conn → Bool) : World :=
  w.clients.keys.foldl (sendTo message fails) w

/-- The message built by Go `broadcastDeviceUpdate` from the list that
`getDevicesList()` returned in state `w`. -/
def deviceUpdateMessage (w : World) : WebSocketMessage :=
  { Type_ := "device_update", Devices := some (getDevicesList w) }

/-- Go `broadcastDeviceUpdate`, run without another goroutine taking the mutex
between `getDevicesList()` and `broadcastMessage`. -/
def broadcastDeviceUpdate (w : World) (fails : Conn → Bool) : World :=
  broadcastMessage w (deviceUpdateMessage w) fails

/-- The message built by Go `handleWebSocket` (lines 191-201) from the list that
`getDevicesList()` returned in state `w`. -/
def connectionStatusMessage (w : World) : WebSocketMessage :=
  { Type_ := "connection_status"
    Status := if w.hasSerialPort then "connected" else "wifi_only"
    Message := "Connected to medication sensor server"
    Devices := some (getDevicesList w) }

/-- Go `handleWebSocket`, lines 203-211: `conn.WriteJSON(message)`; on error
`conn.Close()` and return, otherwise `go handleClientMessages(conn)`. -/
def writeInitial (w : World) (conn : Conn) (message : WebSocketMessage) (writeOk : Bool) : World :=
  if writeOk then
    { w with
      writes := w.writes ++ [{ conn := conn, message := message, ok := true }]
      loops := w.loops ++ [conn] }
  else
    { w with
      writes := w.writes ++ [{ conn := conn, message := message, ok := false }]
      closed := w.closed ++ [conn] }

/-- Go `handleWebSocket` after a successful upgrade, run without another
goroutine in between. -/
def handleWebSocket (w : World) (conn : Conn) (clientIP : String) (unix : Int) (now : Time)
    (writeOk : Bool) : World :=
  let w1 := register w conn clientIP unix now
  writeInitial w1 conn (connectionStatusMessage w1) writeOk

/-! ## Event log -/

/-- Go `logMedicationEvent`: marshal, then append the line and a newline to the
log file, creating the file if it is missing.  A marshal error leaves the file
as it is.  The calls to the operating system are taken to succeed. -/
def logMedicationEvent (lib : StdLib) (w : World) (event : MedicationEvent) : World :=
  match lib.marshal event with
  | none => w
  | some data => { w with logFile := some (w.logFile.getD "" ++ data ++ "\n") }

/-- The body of the `for _, line := range lines` loop of Go `readLogFile`. -/
def readLine (lib : StdLib) (logs : List MedicationEvent) (line : String) : List MedicationEvent :=
  if line = "" then logs
  else
    match lib.unmarshal line with
    | some event => logs ++ [event]
    | none => logs

/-- Go `readLogFile`, with `os.ReadFile` taken to succeed on an existing file. -/
def readLogFile (lib : StdLib) (w : World) : List MedicationEvent :=
  match w.logFile with
  | none => []
  | some data => (splitLines data).foldl (readLine lib) []

/-! ## Protocol handler -/

/-- Go `broadcastMedicationTaken`; `timestamp` is its `time.Now()`. -/
def broadcastMedicationTaken (lib : StdLib) (w : World) (medicationName deviceID : String)
    (timestamp : Time) (fails : Conn → Bool) : World :=
  let event : MedicationEvent :=
    { Type_ := "medication_taken", Medication := medicationName, Timestamp := timestamp,
      DeviceID := deviceID, ServerTime := timestamp }
  let w1 := logMedicationEvent lib w event
  let message : WebSocketMessage :=
    { Type_ := "medication_taken", Medication := medicationName,
      Timestamp := lib.formatRFC3339 timestamp, DeviceID := deviceID }
  broadcastMessage w1 message fails

/-- One iteration of the loop of Go `handleClientMessages` after `ReadJSON`
returned `msg` on `conn`: the `switch msg.Type`.  `none` is the panic of
`identify`. -/
def handleMessage (lib : StdLib) (w : World) (conn : Conn) (msg : WebSocketMessage)
    (unix : Int) (now : Time) (fails : Conn → Bool) : Option World :=
  if msg.Type_ = "device_connected" then
    match identify w conn msg.DeviceID msg.IP unix now with
    | none => none
    | some w1 => some (broadcastDeviceUpdate w1 fails)
  else if msg.Type_ = "medication_taken" then
    let deviceID :=
      match w.devices.lookup conn with
      | some deviceInfo => deviceInfo.DeviceID
      | none => ""
    some (broadcastMedicationTaken lib w msg.Medication deviceID now fails)
  else if msg.Type_ = "simulation" then
    some (broadcastMedicationTaken lib w msg.Medication "simulation" now fails)
  else some w

/-- The deferred function of Go `handleClientMessages` (lines 216-234), run when
`ReadJSON` returns an error. -/
def cleanup (w : World) (conn : Conn) (fails : Conn → Bool) : World :=
  match unregister w conn with
  | (w1, some _) => broadcastDeviceUpdate w1 fails
  | (w1, none) => w1

/-- Go `handleClientMessages`: the loop over the messages that `ReadJSON` returns,
each with the clock readings and send outcomes of its iteration, and, when
`ReadJSON` returns an error, the deferred cleanup.  Run without another goroutine
in between. -/
def handleClientMessages (lib : StdLib) (conn : Conn) (failsAtCleanup : Conn → Bool) :
    World → List (WebSocketMessage × Int × Time × (Conn → Bool)) → Option World
  | w, [] => some (cleanup w conn failsAtCleanup)
  | w, (msg, unix, now, fails) :: rest =>
    match handleMessage lib w conn msg unix now fails with
    | none => none
    | some w1 => handleClientMessages lib conn failsAtCleanup w1 rest

/-! ## Runs of the registry -/

/-- The three sections of code that write the registry under `clientsMutex`:
the insert of `handleWebSocket` (lines 177-188), the write of the
`device_connected` branch (lines 253-271), and the deletes of the deferred
cleanup with its `conn.Close()` (lines 217-226). -/
inductive Op
  | register (conn : Conn) (clientIP : String) (unix : Int) (now : Time)
  | identify (conn : Conn) (msgDeviceID msgIP : String) (unix : Int) (now : Time)
  | unregister (conn : Conn)

/-- The effect of one section; `none` is the panic of `identify`. -/
def Op.apply (w : World) : Op → Option World
  | .register c ip unix now => some (MedTracker.register w c ip unix now)
  | .identify c deviceID ip unix now => MedTracker.identify w c deviceID ip unix now
  | .unregister c => some (MedTracker.unregister w c).1

/-- A section run under `clientsMutex` by some goroutine: one of the three
registry operations, or one pass of `broadcastMessage`, which prunes the
connections whose send fails. -/
inductive Step
  | op (o : Op)
  | broadcast (message : WebSocketMessage) (fails : Conn → Bool)

/-- The effect of one step. -/
def Step.apply (w : World) : Step → Option World
  | .op o => o.apply w
  | .broadcast message fails => some (broadcastMessage w message fails)

/-- A sequence of steps applied in order. -/
def run (w : World) (steps : List Step) : Option World :=
  steps.foldlM Step.apply w

/-- The step registers connection `k`. -/
def Step.registers (k : Conn) : Step → Bool
  | .op (.register c _ _ _) => decide (c = k)
  | _ => false

/-- The `WriteJSON` calls made after state `before` up to state `after`. -/
def writesSince (before after : World) : List WriteRecord :=
  after.writes.drop before.writes.length

/-! ## The registry operations as the program performs them -/

/-- The three operations on the registry, each with everything the program does
in it: `register` is `handleWebSocket` (the insert, then the write of
`connection_status`), `identify` is the `device_connected` branch of
`handleClientMessages` (the write of `devices[conn]`, then
`broadcastDeviceUpdate()`), `unregister` is the deferred cleanup of
`handleClientMessages` (the deletes, `conn.Close()`, then
`broadcastDeviceUpdate()` if there was an entry).  `fails` gives the outcome of
the sends of the broadcast. -/
inductive Call
  | register (conn : Conn) (clientIP : String) (unix : Int) (now : Time) (writeOk : Bool)
  | identify (conn : Conn) (msgDeviceID msgIP : String) (unix : Int) (now : Time)
      (fails : Conn → Bool)
  | unregister (conn : Conn) (fails : Conn → Bool)

/-- The connection an operation acts on. -/
def Call.conn : Call → Conn
  | .register c _ _ _ _ => c
  | .identify c _ _ _ _ _ => c
  | .unregister c _ => c

/-- The outcome of the sends of the broadcast that an operation makes. -/
def Call.fails : Call → Conn → Bool
  | .register _ _ _ _ _ => fun _ => false
  | .identify _ _ _ _ _ fails => fails
  | .unregister _ fails => fails

/-- The effect of one operation; `none` is the panic of the `device_connected`
branch. -/
def Call.apply (lib : StdLib) (w : World) : Call → Option World
  | .register c ip unix now writeOk => some (handleWebSocket w c ip unix now writeOk)
  | .identify c deviceID ip unix now fails =>
    handleMessage lib w c { Type_ := "device_connected", DeviceID := deviceID, IP := ip }
      unix now fails
  | .unregister c fails => some (cleanup w c fails)

/-- A sequence of operations applied in order. -/
def runCalls (lib : StdLib) (w : World) (calls : List Call) : Option World :=
  calls.foldlM (Call.apply lib) w

/-! ## The registry as the claims describe it -/

/-- Whether connection `c` was registered and has not been unregistered since,
read off the operations listed most recent first. -/
def registeredRev (c : Conn) : List Call → Bool
  | [] => false
  | .register c1 _ _ _ _ :: rest => if c1 = c then true else registeredRev c rest
  | .unregister c1 _ :: rest => if c1 = c then false else registeredRev c rest
  | .identify _ _ _ _ _ _ :: rest => registeredRev c rest

/-- Whether `c` is registered and not yet unregistered after `calls`. -/
def isRegistered (c : Conn) (calls : List Call) : Bool :=
  registeredRev c calls.reverse

/-- Whether connection `c` is in the registry, read off the operations listed
most recent first: it was registered, and since then it was neither
unregistered nor pruned by a broadcast whose send to it failed.  The broadcast
of an `identify` reaches every connection in the registry; the broadcast of an
`unregister` is made only if the unregistered connection had an entry, and
reaches the remaining connections. -/
def presentRev (c : Conn) : List Call → Bool
  | [] => false
  | .register c1 _ _ _ _ :: rest => if c1 = c then true else presentRev c rest
  | .identify _ _ _ _ _ fails :: rest => presentRev c rest && !fails c
  | .unregister c1 fails :: rest =>
    if c1 = c then false else presentRev c rest && !(presentRev c1 rest && fails c)

/-- Whether `c` is in the registry after `calls`: registered, and since then
neither unregistered nor pruned. -/
def isPresent (c : Conn) (calls : List Call) : Bool :=
  presentRev c calls.reverse

/-- The device written by the most recent `register` or `identify` on `c`, read
off the operations listed most recent first.  An `identify` with an empty ip
keeps the ip of the device written before it. -/
def lastWrittenRev (c : Conn) : List Call → Option Device
  | [] => none
  | .register c1 ip unix now _ :: rest =>
    if c1 = c then some (placeholderDevice ip unix now) else lastWrittenRev c rest
  | .identify c1 deviceID ip unix now _ :: rest =>
    if c1 = c then
      some (identifiedDevice deviceID ip (((lastWrittenRev c rest).map Device.IP).getD "") unix now)
    else lastWrittenRev c rest
  | .unregister _ _ :: rest => lastWrittenRev c rest

/-- The device written by the most recent `register` or `identify` on `c` in
`calls`. -/
def lastWritten (c : Conn) (calls : List Call) : Option Device :=
  lastWrittenRev c calls.reverse

/-- Every `identify` acts on a connection that is in the registry at that point
(operations listed most recent first). -/
def identifyOnPresentRev : List Call → Bool
  | [] => true
  | .identify c _ _ _ _ _ :: rest => presentRev c rest && identifyOnPresentRev rest
  | .register _ _ _ _ _ :: rest => identifyOnPresentRev rest
  | .unregister _ _ :: rest => identifyOnPresentRev rest

/-- Every `identify` of `calls` acts on a connection that is in the registry at
that point. -/
def identifyOnPresent (calls : List Call) : Bool :=
  identifyOnPresentRev calls.reverse

/-- The connections in the registry after `calls`, each listed once. -/
def liveConns (calls : List Call) : List Conn :=
  (calls.map Call.conn).dedup.filter fun c => isPresent c calls

/-! ## A line codec for closed examples

The theorems below hold for every `StdLib`.  Closed examples need one instance;
`exampleLib` writes an event as the compact JSON object that `json.Marshal`
produces for text that needs no escaping, with an instant written as its
decimal number, and reads back exactly such objects. -/

/-- Characters that a JSON string holds unescaped. -/
def plainChar (ch : Char) : Bool :=
  ch != '"' && ch != '\\' && decide (32 ≤ ch.toNat)

/-- A JSON string literal for plain text. -/
def quoteText (s : String) : Option String :=
  if s.data.all plainChar then some ("\"" ++ s ++ "\"") else none

/-- The event as one compact JSON object; `deviceId` is left out when empty
(`omitempty`). -/
def exampleMarshal (e : MedicationEvent) : Option String :=
  match quoteText e.Type_, quoteText e.Medication, quoteText e.DeviceID with
  | some ty, some med, some dev =>
    some ("\x7b\"type\":" ++ ty ++ ",\"medication\":" ++ med ++
      ",\"timestamp\":\"" ++ toString e.Timestamp ++ "\"" ++
      (if e.DeviceID = "" then "" else ",\"deviceId\":" ++ dev) ++
      ",\"serverTime\":\"" ++ toString e.ServerTime ++ "\"\x7d")
  | _, _, _ => none

/-- Removes the literal `lit` from the front of `s`. -/
def stripLit (lit : String) (s : List Char) : Option (List Char) :=
  if s.take lit.data.length = lit.data then some (s.drop lit.data.length) else none

/-- Reads a JSON string literal of plain text from the front of `s`. -/
def readQuoted : List Char → Option (String × List Char)
  | '"' :: rest =>
    match rest.dropWhile plainChar with
    | '"' :: tail => some (String.mk (rest.takeWhile plainChar), tail)
    | _ => none
  | _ => none

/-- Reads a decimal number. -/
def readNat (ds : List Char) : Option Nat :=
  if ds ≠ [] ∧ ds.all Char.isDigit = true then
    some (ds.foldl (fun n d => 10 * n + (d.toNat - 48)) 0)
  else none

/-- Reads a decimal number with an optional minus sign. -/
def readInt : List Char → Option Int
  | '-' :: ds => (readNat ds).map fun n => -(n : Int)
  | ds => (readNat ds).map fun n => (n : Int)

/-- Reads one object written by `exampleMarshal`; anything else is an error. -/
def exampleUnmarshal (line : String) : Option MedicationEvent :=
  match stripLit "\x7b\"type\":" line.data with
  | none => none
  | some s1 =>
  match readQuoted s1 with
  | none => none
  | some (ty, s2) =>
  match stripLit ",\"medication\":" s2 with
  | none => none
  | some s3 =>
  match readQuoted s3 with
  | none => none
  | some (med, s4) =>
  match stripLit ",\"timestamp\":" s4 with
  | none => none
  | some s5 =>
  match readQuoted s5 with
  | none => none
  | some (ts, s6) =>
  let (dev?, s7) :=
    match stripLit ",\"deviceId\":" s6 with
    | some s => (match readQuoted s with
      | some (dev, s) => (some dev, s)
      | none => (none, s))
    | none => (some "", s6)
  match dev?, stripLit ",\"serverTime\":" s7 with
  | some dev, some s8 =>
    match readQuoted s8 with
    | some (st, ['\x7d']) =>
      match readInt ts.data, readInt st.data with
      | some t1, some t2 =>
        some { Type_ := ty, Medication := med, Timestamp := t1, DeviceID := dev, ServerTime := t2 }
      | _, _ => none
    | _ => none
  | _, _ => none

/-- The instance used in closed examples. -/
def exampleLib : StdLib :=
  { marshal := exampleMarshal, unmarshal := exampleUnmarshal,
    formatRFC3339 := fun t => toString t }

/-! ## Runs with other goroutines in between -/

/-- Go `broadcastDeviceUpdate` in a run where other goroutines perform the steps
`between` after `getDevicesList()` has released `clientsMutex` and before
`broadcastMessage` takes it.  The message is built from the list returned in
state `w`. -/
def broadcastDeviceUpdateAfter (w : World) (between : List Step) (fails : Conn → Bool) :
    Option World :=
  match run w between with
  | none => none
  | some w1 => some (broadcastMessage w1 (deviceUpdateMessage w) fails)

/-- Go `handleWebSocket` in a run where other goroutines perform the steps
`before` between the insert and `getDevicesList()`, and the steps `between`
between `getDevicesList()` and `conn.WriteJSON(message)`. -/
def handleWebSocketAfter (w : World) (conn : Conn) (clientIP : String) (unix : Int)
    (now : Time) (before between : List Step) (writeOk : Bool) : Option World :=
  match run (register w conn clientIP unix now) before with
  | none => none
  | some w1 =>
    match run w1 between with
    | none => none
    | some w2 => some (writeInitial w2 conn (connectionStatusMessage w1) writeOk)

/-! ## Concrete states and events for closed statements -/

/-- A fresh process in which one client connected and its first write failed. -/
def afterFailedAccept : World :=
  handleWebSocket (World.init false) 1 "10.0.0.1:5000" 100 100 false

/-- A fresh process in which connections 1 and 2 were accepted and both message
loops are running. -/
def twoClients : World :=
  handleWebSocket (handleWebSocket (World.init false) 1 "10.0.0.1:5000" 100 100 true)
    2 "10.0.0.2:5000" 101 101 true

/-- The state `twoClients` after connection 1 sent a `simulation` message and the
broadcast failed to write to connection 2. -/
def prunedWorld : World :=
  broadcastMedicationTaken exampleLib twoClients "aspirin" "simulation" 102
    (fun c => decide (c = 2))

/-- A fresh process in which connection 1 was accepted and then announced the
device id `arduino` in a `device_connected` message. -/
def oneDevice : World :=
  { handleWebSocket (World.init false) 1 "10.0.0.1:5000" 100 100 true with
    devices := (AList.insert 1
      (identifiedDevice "arduino" "" "10.0.0.1:5000" 101 101)
      (handleWebSocket (World.init false) 1 "10.0.0.1:5000" 100 100 true).devices) }

/-- The state `oneDevice` after `handleWebSocket` has inserted connection 2. -/
def lateJoin : World :=
  register oneDevice 2 "10.0.0.2:5000" 102 102

/-- The state `lateJoin` after `broadcastMessage` has sent the `device_update`
message built from the device list of `oneDevice`. -/
def staleDelivery : World :=
  broadcastMessage lateJoin (deviceUpdateMessage oneDevice) (fun _ => false)

/-- A sequence of registry operations: two clients connect, the first
identifies itself with empty id and ip, the second disconnects; every send
succeeds. -/
def exampleCalls : List Call :=
  [.register 1 "10.0.0.1:5000" 100 100 true, .register 2 "10.0.0.2:5000" 101 101 true,
   .identify 1 "" "" 102 102 (fun _ => false), .unregister 2 (fun _ => false)]

/-- A sequence of registry operations: two clients connect, the first
identifies itself, and the `device_update` broadcast fails to write to the
second. -/
def pruningCalls : List Call :=
  [.register 1 "10.0.0.1:5000" 100 100 true, .register 2 "10.0.0.2:5000" 101 101 true,
   .identify 1 "esp-1" "" 102 102 (fun c => decide (c = 2))]

/-- An event from the serial bridge. -/
def eventA : MedicationEvent :=
  { Type_ := "medication_taken", Medication := "aspirin", Timestamp := 1700000000,
    DeviceID := "arduino", ServerTime := 1700000000 }

/-- An event from a satellite device. -/
def eventB : MedicationEvent :=
  { Type_ := "medication_taken", Medication := "ibuprofen", Timestamp := 1700000060,
    DeviceID := "esp-1", ServerTime := 1700000060 }

/-- An earlier event. -/
def eventC : MedicationEvent :=
  { Type_ := "medication_taken", Medication := "paracetamol", Timestamp := 1699999000,
    DeviceID := "", ServerTime := 1699999000 }

/-- The record of `eventC` followed by a newline. -/
def terminatedLog : String :=
  "\x7b\"type\":\"medication_taken\",\"medication\":\"paracetamol\"," ++
  "\"timestamp\":\"1699999000\",\"serverTime\":\"1699999000\"\x7d\n"

/-- A log whose first line is the record of `eventC` and whose last line is a
record cut off in the middle, with no newline after it. -/
def truncatedLog : String :=
  terminatedLog ++ "\x7b\"type\":\"medication_taken\",\"medication\":\"asp"

/-- The record that `exampleLib` writes for `eventA`. -/
def recordA : String :=
  "\x7b\"type\":\"medication_taken\",\"medication\":\"aspirin\",\"timestamp\":\"1700000000\"," ++
  "\"deviceId\":\"arduino\",\"serverTime\":\"1700000000\"\x7d"

/-- The record that `exampleLib` writes for `eventB`. -/
def recordB : String :=
  "\x7b\"type\":\"medication_taken\",\"medication\":\"ibuprofen\",\"timestamp\":\"1700000060\"," ++
  "\"deviceId\":\"esp-1\",\"serverTime\":\"1700000060\"\x7d"

/-- A process whose log file holds `truncatedLog`. -/
def crashedWorld : World :=
  { World.init false with logFile := some truncatedLog }

/-- A process whose log file holds `terminatedLog`. -/
def loggedWorld : World :=
  { World.init false with logFile := some terminatedLog }

/-! ## Lemmas on the string helpers -/

theorem contains_iff (s substr : String) (h : substr.data ≠ []) :
    contains s substr = true ↔ ∃ pre post, s.data = pre ++ substr.data ++ post := by
  unfold contains
  simp only [List.any_eq_true, List.mem_range, Bool.and_eq_true, decide_eq_true_eq]
  constructor
  · rintro ⟨i, _, _, h3⟩
    refine ⟨s.data.take i, (s.data.drop i).drop substr.data.length, ?_⟩
    have e1 := List.take_append_drop i s.data
    have e2 := List.take_append_drop substr.data.length (s.data.drop i)
    rw [h3] at e2
    rw [List.append_assoc, e2, e1]
  · rintro ⟨pre, post, e⟩
    have hl : 0 < substr.data.length := List.length_pos.mpr h
    refine ⟨pre.length, ?_, ?_, ?_⟩
    · rw [e]; simp only [List.length_append]; omega
    · rw [e]; simp only [List.length_append]; omega
    · rw [e, List.append_assoc, List.drop_left, List.take_left]

theorem splitStringLoop_colon (s : List Char) :
    ∀ (fuel i start : Nat) (result : List String), start ≤ i → i ≤ s.length →
      s.length - i < fuel →
      ∃ r st, splitStringLoop s [':'] fuel i start result = some (r, st) ∧
        (if st < s.length then r ++ [String.mk (s.drop st)] else r) =
          result ++ colonTokens ((s.drop start).take (i - start)) (s.drop i) := by
  intro fuel
  induction fuel with
  | zero => intro i start result _ _ h; omega
  | succ fuel ih =>
    intro i start result hsi hil hf
    unfold splitStringLoop
    by_cases hlt : i < s.length
    · rw [if_pos hlt]
      have hd : s.drop i = s[i] :: s.drop (i + 1) := List.drop_eq_getElem_cons hlt
      have htake : (s.drop start).take (i + 1 - start) =
          (s.drop start).take (i - start) ++ [s[i]] := by
        have : i + 1 - start = (i - start) + 1 := by omega
        rw [this, List.take_succ]
        congr 1
        have hlt2 : i - start < (s.drop start).length := by
          rw [List.length_drop]; omega
        rw [List.getElem?_eq_getElem hlt2, List.getElem_drop]
        simp only [Option.toList_some]
        congr 2
        omega
      by_cases hc : s[i] = ':'
      · have hcond : i + [':'].length ≤ s.length ∧ (s.drop i).take [':'].length = [':'] := by
          refine ⟨by simpa using hlt, ?_⟩
          rw [hd, hc]; rfl
        rw [if_pos hcond]
        obtain ⟨r, st, h1, h2⟩ := ih (i + 1) (i + 1)
          (result ++ [String.mk ((s.drop start).take (i - start))]) (le_refl _) hlt (by omega)
        refine ⟨r, st, h1, ?_⟩
        rw [h2, hd, colonTokens, if_pos hc]
        simp
      · have hcond : ¬ (i + [':'].length ≤ s.length ∧
            (s.drop i).take [':'].length = [':']) := by
          rintro ⟨_, h2⟩
          rw [hd] at h2
          simp only [List.length_singleton, List.take_succ_cons, List.take_zero,
            List.cons.injEq, and_true] at h2
          exact hc h2
        rw [if_neg hcond]
        obtain ⟨r, st, h1, h2⟩ := ih (i + 1) start result (by omega) hlt (by omega)
        refine ⟨r, st, h1, ?_⟩
        rw [h2, hd, htake]
        conv_rhs => rw [colonTokens, if_neg hc]
    · rw [if_neg hlt]
      have hi : i = s.length := by omega
      subst hi
      refine ⟨result, start, rfl, ?_⟩
      rw [List.drop_length, colonTokens]
      have ht : (s.drop start).take (s.length - start) = s.drop start := by
        apply List.take_of_length_le
        rw [List.length_drop]
      rw [ht]
      by_cases hs : start < s.length
      · have : s.drop start ≠ [] := by
          intro h0
          have := congrArg List.length h0
          rw [List.length_drop] at this
          simp at this
          omega
        rw [if_pos hs, if_neg this]
      · have : s.drop start = [] := List.drop_eq_nil_of_le (by omega)
        rw [if_neg hs, if_pos this]
        simp

theorem splitString_colon (s : String) : splitString s ":" = some (colonTokens [] s.data) := by
  obtain ⟨r, st, h1, h2⟩ :=
    splitStringLoop_colon s.data (s.data.length + 1) 0 0 [] (le_refl _) (Nat.zero_le _) (by omega)
  unfold splitString
  have hd : (":" : String).data = [':'] := rfl
  rw [hd, h1]
  simp only [List.drop_zero, Nat.sub_zero, List.take_zero, List.nil_append] at h2
  by_cases hs : st < s.data.length
  · rw [if_pos hs] at h2; simp only [if_pos hs, h2]
  · rw [if_neg hs] at h2; simp only [if_neg hs, h2]

theorem colonTokens_of_not_mem (rest : List Char) :
    ∀ cur : List Char, ':' ∉ rest →
      colonTokens cur rest = if cur ++ rest = [] then [] else [String.mk (cur ++ rest)] := by
  induction rest with
  | nil => intro cur _; simp [colonTokens]
  | cons ch rest ih =>
    intro cur h
    have hc : ch ≠ ':' := fun e => h (by simp [e])
    have hr : ':' ∉ rest := fun e => h (by simp [e])
    rw [colonTokens, if_neg hc, ih _ hr]
    simp

theorem colonTokens_of_mem (rest : List Char) :
    ∀ cur : List Char, ':' ∈ rest →
      colonTokens cur rest =
        String.mk (cur ++ rest.takeWhile (fun ch => ch != ':')) ::
          colonTokens [] ((rest.dropWhile (fun ch => ch != ':')).drop 1) := by
  induction rest with
  | nil => intro cur h; simp at h
  | cons ch rest ih =>
    intro cur h
    by_cases hc : ch = ':'
    · subst hc
      rw [colonTokens, if_pos rfl]
      simp [List.takeWhile, List.dropWhile]
    · have hr : ':' ∈ rest := by
        rcases List.mem_cons.mp h with e | e
        · exact absurd e.symm hc
        · exact e
      rw [colonTokens, if_neg hc, ih _ hr]
      have hb : (ch != ':') = true := by simpa using hc
      simp [List.takeWhile, List.dropWhile, hb]

/-- The medication name that `readSerial` takes from the parts of a chunk that
contains a colon: the text after the first colon up to the next colon or the
end of the chunk. -/
theorem medName_of_colonTokens (s : List Char) (h : ':' ∈ s) :
    (if (colonTokens [] s).length > 1 then (colonTokens [] s).getD 1 "" else "") =
      String.mk (((s.dropWhile (fun ch => ch != ':')).drop 1).takeWhile (fun ch => ch != ':')) := by
  rw [colonTokens_of_mem s [] h]
  generalize (s.dropWhile (fun ch => ch != ':')).drop 1 = b
  by_cases hb : ':' ∈ b
  · rw [colonTokens_of_mem b [] hb]
    simp
  · rw [colonTokens_of_not_mem b [] hb]
    have htw : b.takeWhile (fun ch => ch != ':') = b := by
      rw [List.takeWhile_eq_self_iff]
      intro x hx
      have : x ≠ ':' := fun e => hb (e ▸ hx)
      simpa using this
    rw [htw]
    by_cases hn : b = []
    · subst hn; simp
    · simp [hn]

theorem contains_colon_iff (s : String) : contains s ":" = true ↔ ':' ∈ s.data := by
  rw [contains_iff s ":" (by decide)]
  have hd : (":" : String).data = [':'] := rfl
  rw [hd]
  constructor
  · rintro ⟨pre, post, e⟩
    rw [e]; simp
  · intro h
    obtain ⟨pre, post, e⟩ := List.append_of_mem h
    exact ⟨pre, post, by rw [e]; simp⟩

/-! ## C4: the parsing step of the serial bridge -/

/-- C4. For every chunk read from the serial port: if the chunk contains the
marker `MEDICATION_TAKEN`, the parsing step of `readSerial` makes exactly one call
`broadcastMedicationTaken(medName, "arduino")`, where `medName` is the text between
the first colon of the chunk and the next colon or the end of the chunk, and is
empty when the chunk has no colon; if the chunk does not contain the marker, it
makes no call.  In particular `MEDICATION_TAKEN:aspirin` gives `aspirin` and
`MEDICATION_TAKEN` gives the empty name. -/
theorem readSerial_parsing_step (data : String) :
    readSerialChunk data =
        (if "MEDICATION_TAKEN".data <:+: data.data then
          some [(String.mk (((data.data.dropWhile (fun ch => ch != ':')).drop 1).takeWhile
            (fun ch => ch != ':')), "arduino")]
        else some [])
      ∧ (':' ∈ data.data ∨
          String.mk (((data.data.dropWhile (fun ch => ch != ':')).drop 1).takeWhile
            (fun ch => ch != ':')) = "")
      ∧ readSerialChunk "MEDICATION_TAKEN:aspirin" = some [("aspirin", "arduino")]
      ∧ readSerialChunk "MEDICATION_TAKEN" = some [("", "arduino")] := by
  refine ⟨?_, ?_, by decide, by decide⟩
  · have hm : contains data "MEDICATION_TAKEN" = true ↔
        "MEDICATION_TAKEN".data <:+: data.data := by
      rw [contains_iff data "MEDICATION_TAKEN" (by decide)]
      constructor
      · rintro ⟨pre, post, e⟩; exact ⟨pre, post, e.symm⟩
      · rintro ⟨pre, post, e⟩; exact ⟨pre, post, e.symm⟩
    unfold readSerialChunk
    by_cases hin : "MEDICATION_TAKEN".data <:+: data.data
    · have hpos : data.data.length > 0 := by
        obtain ⟨pre, post, e⟩ := hin
        have h16 : 0 < "MEDICATION_TAKEN".data.length := by decide
        have hlen := congrArg List.length e
        rw [List.length_append, List.length_append] at hlen
        omega
      rw [if_pos hpos, if_pos (hm.mpr hin), if_pos hin, splitString_colon]
      by_cases hc : ':' ∈ data.data
      · rw [if_pos ((contains_colon_iff data).mpr hc)]
        have := medName_of_colonTokens data.data hc
        by_cases hl : (colonTokens [] data.data).length > 1
        · rw [if_pos hl] at this
          simp only [if_pos hl, this]
        · rw [if_neg hl] at this
          simp only [if_neg hl, this]
      · have hnc : ¬ contains data ":" = true := fun h => hc ((contains_colon_iff data).mp h)
        rw [if_neg hnc]
        have hdw : data.data.dropWhile (fun ch => ch != ':') = [] := by
          rw [List.dropWhile_eq_nil_iff]
          intro x hx
          have : x ≠ ':' := fun e => hc (e ▸ hx)
          simpa using this
        rw [hdw]
        rfl
    · have hnm : ¬ contains data "MEDICATION_TAKEN" = true := fun h => hin (hm.mp h)
      rw [if_neg hnm, if_neg hin]
      simp
  · by_cases hc : ':' ∈ data.data
    · exact Or.inl hc
    right
    have hdw : data.data.dropWhile (fun ch => ch != ':') = [] := by
      rw [List.dropWhile_eq_nil_iff]
      intro x hx
      have : x ≠ ':' := fun e => hc (e ▸ hx)
      simpa using this
    rw [hdw]
    rfl


/-! ## Lemmas on the broadcast pass -/

theorem lookup_foldl_erase {β : Type} (l : List Conn) :
    ∀ (a : AList (fun _ : Conn => β)) (c : Conn),
      (l.foldl (fun a c => a.erase c) a).lookup c = if c ∈ l then none else a.lookup c := by
  induction l with
  | nil => intro a c; simp
  | cons x l ih =>
    intro a c
    rw [List.foldl_cons, ih]
    by_cases hx : c = x
    · subst hx; simp
    · by_cases hl : c ∈ l
      · simp [hl]
      · simp [hl, hx, AList.lookup_erase_ne hx]

theorem keys_foldl_erase_subset {β : Type} (l : List Conn) :
    ∀ (a : AList (fun _ : Conn => β)) (c : Conn),
      c ∈ (l.foldl (fun a c => a.erase c) a).keys → c ∈ a.keys := by
  induction l with
  | nil => intro a c h; simpa using h
  | cons x l ih =>
    intro a c h
    rw [List.foldl_cons] at h
    have := ih _ _ h
    rw [← AList.mem_keys, AList.mem_erase] at this
    exact AList.mem_keys.mp this.2

/-- Closed form of the loop of `broadcastMessage` over a list of keys. -/
theorem foldl_sendTo (message : WebSocketMessage) (fails : Conn → Bool) (l : List Conn) :
    ∀ w : World,
      (l.foldl (sendTo message fails) w).writes =
          w.writes ++ l.map (fun c => { conn := c, message := message, ok := !fails c }) ∧
      (l.foldl (sendTo message fails) w).closed = w.closed ++ l.filter fails ∧
      (l.foldl (sendTo message fails) w).clients =
          (l.filter fails).foldl (fun a c => a.erase c) w.clients ∧
      (l.foldl (sendTo message fails) w).devices =
          (l.filter fails).foldl (fun a c => a.erase c) w.devices ∧
      (l.foldl (sendTo message fails) w).hasSerialPort = w.hasSerialPort ∧
      (l.foldl (sendTo message fails) w).logFile = w.logFile ∧
      (l.foldl (sendTo message fails) w).loops = w.loops := by
  induction l with
  | nil => intro w; simp
  | cons x l ih =>
    intro w
    rw [List.foldl_cons]
    obtain ⟨h1, h2, h3, h4, h5, h6, h7⟩ := ih (sendTo message fails w x)
    rw [h1, h2, h3, h4, h5, h6, h7]
    by_cases hx : fails x = true
    · simp [sendTo, hx, List.filter_cons]
    · simp [sendTo, hx, List.filter_cons]

theorem broadcastMessage_writes (w : World) (message : WebSocketMessage) (fails : Conn → Bool) :
    writesSince w (broadcastMessage w message fails) =
      w.clients.keys.map (fun c => { conn := c, message := message, ok := !fails c }) := by
  unfold writesSince broadcastMessage
  rw [(foldl_sendTo message fails w.clients.keys w).1]
  simp

theorem filter_eq_singleton (l : List Conn) (p : Conn → Bool) (k : Conn) (hn : l.Nodup)
    (hk : k ∈ l) (hp : ∀ c ∈ l, p c = true ↔ c = k) : l.filter p = [k] := by
  induction l with
  | nil => simp at hk
  | cons x l ih =>
    rw [List.nodup_cons] at hn
    by_cases hx : x = k
    · subst hx
      have hnone : l.filter p = [] := by
        rw [List.filter_eq_nil_iff]
        intro c hc hpc
        have := (hp c (List.mem_cons_of_mem _ hc)).mp hpc
        exact hn.1 (this ▸ hc)
      rw [List.filter_cons, if_pos ((hp x (List.mem_cons_self _ _)).mpr rfl), hnone]
    · have hkl : k ∈ l := by
        rcases List.mem_cons.mp hk with e | e
        · exact absurd e.symm hx
        · exact e
      have hpx : ¬ p x = true := fun h => hx ((hp x (List.mem_cons_self _ _)).mp h)
      rw [List.filter_cons, if_neg hpx]
      exact ih hn.2 hkl (fun c hc => hp c (List.mem_cons_of_mem _ hc))

theorem broadcastMessage_devices_lookup (w : World) (message : WebSocketMessage)
    (fails : Conn → Bool) (c : Conn) :
    (broadcastMessage w message fails).devices.lookup c =
      if c ∈ w.clients.keys ∧ fails c = true then none else w.devices.lookup c := by
  unfold broadcastMessage
  rw [(foldl_sendTo message fails w.clients.keys w).2.2.2.1, lookup_foldl_erase]
  simp only [List.mem_filter]

theorem broadcastMessage_logFile (w : World) (message : WebSocketMessage)
    (fails : Conn → Bool) : (broadcastMessage w message fails).logFile = w.logFile :=
  (foldl_sendTo message fails w.clients.keys w).2.2.2.2.2.1

theorem broadcastMessage_clients_lookup (w : World) (message : WebSocketMessage)
    (fails : Conn → Bool) (c : Conn) :
    (broadcastMessage w message fails).clients.lookup c =
      if c ∈ w.clients.keys ∧ fails c = true then none else w.clients.lookup c := by
  unfold broadcastMessage
  rw [(foldl_sendTo message fails w.clients.keys w).2.2.1, lookup_foldl_erase]
  simp only [List.mem_filter]

/-- In iteration order, `getDevicesList()` holds the device stored for each key
of `devices`. -/
theorem getDevicesList_eq_lookup (w : World) :
    getDevicesList w = w.devices.keys.filterMap (fun c => w.devices.lookup c) := by
  unfold getDevicesList AList.keys List.keys
  rw [List.filterMap_map, ← List.filterMap_eq_map]
  apply List.filterMap_congr
  intro e he
  have : e.2 ∈ w.devices.lookup e.1 := AList.mem_lookup_iff.mpr he
  simp only [Function.comp]
  exact (Option.mem_def.mp this).symm

theorem mem_getDevicesList (w : World) (d : Device) :
    d ∈ getDevicesList w ↔ ∃ c, w.devices.lookup c = some d := by
  unfold getDevicesList
  simp only [List.mem_map]
  constructor
  · rintro ⟨e, he, rfl⟩
    exact ⟨e.1, Option.mem_def.mp (AList.mem_lookup_iff.mpr he)⟩
  · rintro ⟨c, hc⟩
    exact ⟨⟨c, d⟩, AList.mem_lookup_iff.mp (Option.mem_def.mpr hc), rfl⟩

/-! ## C2: one failing recipient -/

theorem sendTo_clients_subset (message : WebSocketMessage) (fails : Conn → Bool) (l : List Conn)
    (w : World) (c : Conn) (h : c ∈ (l.foldl (sendTo message fails) w).clients.keys) :
    c ∈ w.clients.keys := by
  rw [(foldl_sendTo message fails l w).2.2.1] at h
  exact keys_foldl_erase_subset _ _ _ h

theorem step_keeps_out (k : Conn) (s : Step) (w w1 : World) (hs : s.registers k = false)
    (hk : k ∉ w.clients.keys) (h : s.apply w = some w1) :
    k ∉ w1.clients.keys ∧ ∃ new, w1.writes = w.writes ++ new ∧ ∀ r ∈ new, r.conn ≠ k := by
  cases s with
  | op o =>
    cases o with
    | register c ip unix now =>
      simp only [Step.registers, decide_eq_false_iff_not] at hs
      simp only [Step.apply, Op.apply, register, Option.some.injEq] at h
      subst h
      refine ⟨?_, [], by simp, by simp⟩
      simp only [AList.keys_insert, List.mem_cons, not_or]
      exact ⟨fun e => hs e.symm, fun hm => hk (List.mem_of_mem_erase hm)⟩
    | identify c deviceID ip unix now =>
      simp only [Step.apply, Op.apply, identify] at h
      split at h
      · split at h
        · exact absurd h (by simp)
        · simp only [Option.some.injEq] at h
          subst h
          exact ⟨hk, [], by simp, by simp⟩
      · simp only [Option.some.injEq] at h
        subst h
        exact ⟨hk, [], by simp, by simp⟩
    | unregister c =>
      simp only [Step.apply, Op.apply, unregister, Option.some.injEq] at h
      subst h
      refine ⟨?_, [], by simp, by simp⟩
      simp only [AList.keys_erase]
      exact fun hm => hk (List.mem_of_mem_erase hm)
  | broadcast message fails =>
    simp only [Step.apply, Option.some.injEq] at h
    subst h
    refine ⟨fun hm => hk (sendTo_clients_subset message fails _ w k hm), _,
      (foldl_sendTo message fails w.clients.keys w).1, ?_⟩
    intro r hr
    simp only [List.mem_map] at hr
    obtain ⟨c, hc, rfl⟩ := hr
    exact fun e => hk (e ▸ hc)

theorem run_keeps_out (k : Conn) (steps : List Step) :
    ∀ (w w2 : World), (∀ s ∈ steps, s.registers k = false) → k ∉ w.clients.keys →
      run w steps = some w2 →
      k ∉ w2.clients.keys ∧ ∃ new, w2.writes = w.writes ++ new ∧ ∀ r ∈ new, r.conn ≠ k := by
  induction steps with
  | nil =>
    intro w w2 _ hk h
    simp only [run, List.foldlM_nil, pure, Option.some.injEq] at h
    subst h
    exact ⟨hk, [], by simp, by simp⟩
  | cons s steps ih =>
    intro w w2 hs hk h
    simp only [run, List.foldlM_cons, bind, Option.bind] at h
    cases h1 : s.apply w with
    | none => rw [h1] at h; exact absurd h (by simp)
    | some w1 =>
      rw [h1] at h
      obtain ⟨hk1, new, hw, hnew⟩ := step_keeps_out k s w w1 (hs s (List.mem_cons_self _ _)) hk h1
      obtain ⟨hk2, new2, hw2, hnew2⟩ :=
        ih w1 w2 (fun s hs2 => hs s (List.mem_cons_of_mem _ hs2)) hk1 h
      refine ⟨hk2, new ++ new2, by rw [hw2, hw, List.append_assoc], ?_⟩
      intro r hr
      rcases List.mem_append.mp hr with hr | hr
      · exact hnew r hr
      · exact hnew2 r hr

/-- C2. In a registry whose `clients` map holds N connections, if during one
`broadcastMessage` the send fails for exactly one connection `k`, then the pass
makes N calls of `WriteJSON`; every other connection receives the message exactly
once (one call, successful), so N-1 sends succeed; the one call on `k` fails; `k`
is closed and removed from `clients` and from `devices`, and every other entry of
both maps is unchanged; and in every later run of registry steps and broadcasts
in which `k` is not registered again, no `WriteJSON` is attempted on `k`. -/
theorem broadcast_single_failure (w : World) (message : WebSocketMessage) (fails : Conn → Bool)
    (k : Conn) (hk : k ∈ w.clients.keys)
    (hf : ∀ c ∈ w.clients.keys, fails c = true ↔ c = k) :
    (writesSince w (broadcastMessage w message fails)).length = w.clients.keys.length
    ∧ (∀ c ∈ w.clients.keys, c ≠ k →
        (writesSince w (broadcastMessage w message fails)).filter (fun r => decide (r.conn = c))
          = [{ conn := c, message := message, ok := true }])
    ∧ ((writesSince w (broadcastMessage w message fails)).filter (fun r => r.ok)).length
        = w.clients.keys.length - 1
    ∧ (writesSince w (broadcastMessage w message fails)).filter (fun r => decide (r.conn = k))
        = [{ conn := k, message := message, ok := false }]
    ∧ (broadcastMessage w message fails).clients = w.clients.erase k
    ∧ (broadcastMessage w message fails).devices = w.devices.erase k
    ∧ (broadcastMessage w message fails).closed = w.closed ++ [k]
    ∧ (∀ c, c ≠ k →
        (broadcastMessage w message fails).clients.lookup c = w.clients.lookup c ∧
        (broadcastMessage w message fails).devices.lookup c = w.devices.lookup c)
    ∧ (∀ (steps : List Step) (w2 : World), (∀ s ∈ steps, s.registers k = false) →
        run (broadcastMessage w message fails) steps = some w2 →
        ∀ r ∈ writesSince (broadcastMessage w message fails) w2, r.conn ≠ k) := by
  have hnd : w.clients.keys.Nodup := w.clients.keys_nodup
  have hfil : w.clients.keys.filter fails = [k] := filter_eq_singleton _ _ _ hnd hk hf
  have hwr := broadcastMessage_writes w message fails
  obtain ⟨_, h2, h3, h4, _, _, _⟩ := foldl_sendTo message fails w.clients.keys w
  have hcl : (broadcastMessage w message fails).clients = w.clients.erase k := by
    unfold broadcastMessage; rw [h3, hfil]; rfl
  have hdv : (broadcastMessage w message fails).devices = w.devices.erase k := by
    unfold broadcastMessage; rw [h4, hfil]; rfl
  have hone : ∀ c ∈ w.clients.keys,
      (w.clients.keys.map (fun c => ({ conn := c, message := message, ok := !fails c } :
        WriteRecord))).filter (fun r => decide (r.conn = c))
        = [{ conn := c, message := message, ok := !fails c }] := by
    intro c hc
    rw [List.filter_map]
    have : w.clients.keys.filter ((fun r : WriteRecord => decide (r.conn = c)) ∘
        (fun c => ({ conn := c, message := message, ok := !fails c } : WriteRecord))) = [c] := by
      apply filter_eq_singleton _ _ _ hnd hc
      intro x _
      simp
    rw [this]
    rfl
  refine ⟨?_, ?_, ?_, ?_, hcl, hdv, ?_, ?_, ?_⟩
  · rw [hwr, List.length_map]
  · intro c hc hck
    rw [hwr, hone c hc]
    have : fails c = false := by
      cases hfc : fails c with
      | false => rfl
      | true => exact absurd ((hf c hc).mp hfc) hck
    rw [this]; rfl
  · rw [hwr, List.filter_map, List.length_map]
    have hsum := List.length_eq_length_filter_add (l := w.clients.keys) fails
    rw [hfil] at hsum
    have : w.clients.keys.filter ((fun r : WriteRecord => r.ok) ∘
        (fun c => ({ conn := c, message := message, ok := !fails c } : WriteRecord)))
        = w.clients.keys.filter (fun c => !fails c) := rfl
    rw [this]
    simp only [List.length_singleton] at hsum
    omega
  · rw [hwr, hone k hk, (hf k hk).mpr rfl]; rfl
  · unfold broadcastMessage; rw [h2, hfil]
  · intro c hck
    rw [hcl, hdv]
    exact ⟨AList.lookup_erase_ne hck, AList.lookup_erase_ne hck⟩
  · intro steps w2 hs hrun
    have hkout : k ∉ (broadcastMessage w message fails).clients.keys := by
      rw [hcl, AList.keys_erase]
      exact fun hm => (List.Nodup.mem_erase_iff hnd).mp hm |>.1 rfl
    obtain ⟨_, new, hw2, hnew⟩ := run_keeps_out k steps _ w2 hs hkout hrun
    intro r hr
    unfold writesSince at hr
    rw [hw2, List.drop_left] at hr
    exact hnew r hr

/-! ## C1: the snapshot after a sequence of registry operations -/

theorem presentRev_mem (c : Conn) (rops : List Call) (h : presentRev c rops = true) :
    c ∈ rops.map Call.conn := by
  induction rops with
  | nil => simp [presentRev] at h
  | cons o rest ih =>
    cases o with
    | register c1 ip unix now ok =>
      by_cases e : c1 = c
      · simp [Call.conn, e]
      · simp only [presentRev, if_neg e] at h
        exact List.mem_cons_of_mem _ (ih h)
    | identify c1 deviceID ip unix now fails =>
      simp only [presentRev, Bool.and_eq_true] at h
      exact List.mem_cons_of_mem _ (ih h.1)
    | unregister c1 fails =>
      by_cases e : c1 = c
      · simp [presentRev, e] at h
      · simp only [presentRev, if_neg e, Bool.and_eq_true] at h
        exact List.mem_cons_of_mem _ (ih h.1)

/-- When no send fails, a connection is in the registry exactly when it was
registered and has not been unregistered since. -/
theorem presentRev_eq_registeredRev (c : Conn) (rops : List Call)
    (h : ∀ call ∈ rops, ∀ x, call.fails x = false) : presentRev c rops = registeredRev c rops := by
  induction rops with
  | nil => rfl
  | cons o rest ih =>
    have ih1 := ih (fun call hc => h call (List.mem_cons_of_mem _ hc))
    have ho := h o (List.mem_cons_self _ _)
    cases o with
    | register c1 ip unix now ok => simp only [presentRev, registeredRev, ih1]
    | identify c1 deviceID ip unix now fails =>
      have : fails c = false := ho c
      simp [presentRev, registeredRev, ih1, this]
    | unregister c1 fails =>
      have : fails c = false := ho c
      simp [presentRev, registeredRev, ih1, this]

theorem identifiedDevice_of_ne (deviceID ip p q : String) (unix : Int) (now : Time)
    (h : ip ≠ "") :
    identifiedDevice deviceID ip p unix now = identifiedDevice deviceID ip q unix now := by
  simp [identifiedDevice, h]

theorem handleWebSocket_maps (w : World) (c : Conn) (ip : String) (unix : Int) (now : Time)
    (ok : Bool) :
    (handleWebSocket w c ip unix now ok).devices =
        w.devices.insert c (placeholderDevice ip unix now) ∧
      (handleWebSocket w c ip unix now ok).clients = w.clients.insert c true := by
  cases ok <;> simp [handleWebSocket, writeInitial, register]

/-- The two maps after a run agree, connection by connection, with the reading
of the sequence of operations. -/
theorem runCalls_lookup (lib : StdLib) (serial : Bool) (rops : List Call) :
    identifyOnPresentRev rops = true →
    ∃ w, runCalls lib (World.init serial) rops.reverse = some w ∧
      ∀ c, (w.devices.lookup c =
            if presentRev c rops = true then lastWrittenRev c rops else none) ∧
        (w.clients.lookup c = if presentRev c rops = true then some true else none) ∧
        (presentRev c rops = true → (lastWrittenRev c rops).isSome = true) := by
  induction rops with
  | nil =>
    intro _
    refine ⟨World.init serial, rfl, fun c => ⟨?_, ?_, ?_⟩⟩
    · simp [World.init, presentRev]
    · simp [World.init, presentRev]
    · simp [presentRev]
  | cons o rest ih =>
    intro hwf
    have hrun : ∀ w, runCalls lib (World.init serial) rest.reverse = some w →
        runCalls lib (World.init serial) (o :: rest).reverse = o.apply lib w := by
      intro w hw
      unfold runCalls at hw ⊢
      rw [List.reverse_cons, List.foldlM_append, hw]
      simp
    have hkeys : ∀ (w : World), (∀ c, w.clients.lookup c =
        if presentRev c rest = true then some true else none) →
        ∀ c, c ∈ w.clients.keys ↔ presentRev c rest = true := by
      intro w hcl c
      rw [← AList.mem_keys, ← AList.lookup_isSome, hcl c]
      by_cases hp : presentRev c rest = true <;> simp [hp]
    cases o with
    | register c1 ip unix now ok =>
      obtain ⟨w, hw, hinv⟩ := ih (by simpa [identifyOnPresentRev] using hwf)
      obtain ⟨hd, hc⟩ := handleWebSocket_maps w c1 ip unix now ok
      refine ⟨handleWebSocket w c1 ip unix now ok, by rw [hrun w hw]; rfl, fun c => ?_⟩
      rw [hd, hc]
      by_cases e : c1 = c
      · subst e
        simp [presentRev, lastWrittenRev]
      · have e2 : c ≠ c1 := fun h => e h.symm
        simp only [presentRev, lastWrittenRev, if_neg e, AList.lookup_insert_ne e2]
        exact hinv c
    | unregister c1 fails =>
      obtain ⟨w, hw, hinv⟩ := ih (by simpa [identifyOnPresentRev] using hwf)
      have hk := hkeys w (fun c => (hinv c).2.1)
      refine ⟨cleanup w c1 fails, by rw [hrun w hw]; rfl, fun c => ?_⟩
      by_cases hp1 : presentRev c1 rest = true
      · obtain ⟨old, hold⟩ := Option.isSome_iff_exists.mp ((hinv c1).2.2 hp1)
        have hl1 : w.devices.lookup c1 = some old := by
          rw [(hinv c1).1, if_pos hp1, hold]
        have hcu : cleanup w c1 fails = broadcastDeviceUpdate (unregister w c1).1 fails := by
          simp [cleanup, unregister, hl1]
        rw [hcu]
        unfold broadcastDeviceUpdate
        rw [broadcastMessage_devices_lookup, broadcastMessage_clients_lookup]
        have hmem : c ∈ (unregister w c1).1.clients.keys ↔ c ≠ c1 ∧ presentRev c rest = true := by
          simp only [unregister]
          rw [← AList.mem_keys, AList.mem_erase, AList.mem_keys, hk c]
        by_cases e : c1 = c
        · subst e
          simp [presentRev, hmem, unregister]
        · have e2 : c ≠ c1 := fun h => e h.symm
          simp only [presentRev, lastWrittenRev, if_neg e, hmem, hp1, Bool.true_and]
          simp only [unregister, AList.lookup_erase_ne e2]
          obtain ⟨h1, h2, h3⟩ := hinv c
          rw [h1, h2]
          by_cases hp : presentRev c rest = true
          · by_cases hf : fails c = true
            · simp [hp, hf, e2]
            · simp [hp, hf, e2]
              exact h3 hp
          · simp [hp]
      · have hl1 : w.devices.lookup c1 = none := by
          rw [(hinv c1).1, if_neg hp1]
        have hcu : cleanup w c1 fails = (unregister w c1).1 := by
          simp [cleanup, unregister, hl1]
        rw [hcu]
        by_cases e : c1 = c
        · subst e
          simp [presentRev, unregister]
        · have e2 : c ≠ c1 := fun h => e h.symm
          simp only [presentRev, lastWrittenRev, if_neg e, unregister,
            AList.lookup_erase_ne e2]
          obtain ⟨h1, h2, h3⟩ := hinv c
          rw [h1, h2]
          by_cases hp : presentRev c rest = true
          · simp [hp, hp1]
            exact h3 hp
          · simp [hp]
    | identify c1 deviceID ip unix now fails =>
      simp only [identifyOnPresentRev, Bool.and_eq_true] at hwf
      obtain ⟨w, hw, hinv⟩ := ih hwf.2
      have hk := hkeys w (fun c => (hinv c).2.1)
      obtain ⟨old, hold⟩ := Option.isSome_iff_exists.mp ((hinv c1).2.2 hwf.1)
      have hl1 : w.devices.lookup c1 = some old := by
        rw [(hinv c1).1, if_pos hwf.1, hold]
      have hid : identify w c1 deviceID ip unix now =
          some { w with
            devices := (w.devices.insert c1 (identifiedDevice deviceID ip old.IP unix now)) } := by
        unfold identify
        by_cases hip : ip = ""
        · rw [if_pos hip, hl1]
        · rw [if_neg hip, identifiedDevice_of_ne deviceID ip "" old.IP unix now hip]
      have happ : (Call.identify c1 deviceID ip unix now fails).apply lib w =
          some (broadcastDeviceUpdate { w with
            devices := (w.devices.insert c1 (identifiedDevice deviceID ip old.IP unix now)) }
            fails) := by
        simp only [Call.apply, handleMessage, if_true, hid]
      refine ⟨_, by rw [hrun w hw]; exact happ, fun c => ?_⟩
      unfold broadcastDeviceUpdate
      rw [broadcastMessage_devices_lookup, broadcastMessage_clients_lookup]
      simp only [hk c, presentRev, lastWrittenRev, hold, Option.map_some', Option.getD_some]
      obtain ⟨h1, h2, h3⟩ := hinv c
      rw [h2]
      by_cases hp : presentRev c rest = true
      · by_cases hf : fails c = true
        · simp [hp, hf]
        · by_cases e : c1 = c
          · subst e
            simp [hp, hf, hold]
          · have e2 : c ≠ c1 := fun h => e h.symm
            simp [hp, hf, e, AList.lookup_insert_ne e2, h1]
            exact h3 hp
      · have e : c1 ≠ c := fun h => hp (h ▸ hwf.1)
        have e2 : c ≠ c1 := fun h => e h.symm
        simp [hp, AList.lookup_insert_ne e2, h1]

/-- The values of a map are, up to order, the images of any duplicate-free list
of keys that covers the map. -/
theorem values_perm (a : AList (fun _ : Conn => Device)) (ks : List Conn)
    (f : Conn → Option Device) (hnd : ks.Nodup) (hlook : ∀ c, a.lookup c = f c)
    (hcov : ∀ c, (f c).isSome = true → c ∈ ks) :
    (a.entries.map fun e => e.2).Perm (ks.filterMap f) := by
  have h1 : (a.entries.map fun e => e.2) = a.keys.filterMap f := by
    unfold AList.keys List.keys
    rw [List.filterMap_map]
    rw [← List.filterMap_eq_map]
    apply List.filterMap_congr
    intro e he
    have : e.2 ∈ a.lookup e.1 := AList.mem_lookup_iff.mpr he
    rw [hlook] at this
    simp only [Function.comp]
    exact (Option.mem_def.mp this).symm
  have h2 : a.keys.Perm (ks.filter fun c => (f c).isSome) := by
    rw [List.perm_ext_iff_of_nodup a.keys_nodup (hnd.filter _)]
    intro c
    rw [← AList.mem_keys, ← AList.lookup_isSome, hlook, List.mem_filter]
    exact ⟨fun h => ⟨hcov c h, h⟩, fun h => h.2⟩
  rw [h1]
  refine (h2.filterMap f).trans ?_
  rw [List.filterMap_filter]
  apply List.Perm.of_eq
  apply List.filterMap_congr
  intro c _
  cases hfc : f c <;> simp

/-- C1, counterexample. Connections 1 and 2 are registered, then connection 1
identifies itself and the `device_update` broadcast of that branch fails to write
to connection 2, which prunes it.  Both connections were registered and neither
was unregistered, yet `getDevicesList()` returns one device only and `devices` has
no entry for connection 2.  If connection 2 then identifies itself with an empty
ip, the run does not return a state. -/
theorem failed_send_unlists_registered :
    isRegistered 1 pruningCalls = true ∧ isRegistered 2 pruningCalls = true
      ∧ (runCalls exampleLib (World.init false) pruningCalls).map getDevicesList =
          some [identifiedDevice "esp-1" "" "10.0.0.1:5000" 102 102]
      ∧ (runCalls exampleLib (World.init false) pruningCalls).map
          (fun w => w.devices.lookup 2) = some none
      ∧ (runCalls exampleLib (World.init false)
          (pruningCalls ++ [.identify 2 "" "" 103 103 (fun _ => false)])).isNone = true := by
  refine ⟨by decide, by decide, by decide, by decide, by decide⟩

/-- C1, as amended. For every finite sequence of register, identify and
unregister operations applied to the registry of a fresh process, each with the
broadcast it makes, in which every identify acts on a connection that is in the
registry at that point, the run returns a state, and `getDevicesList()` in that
state returns, up to order, exactly one device for each connection that was
registered and has since been neither unregistered nor pruned by a broadcast
whose send to it failed, namely the device written by the most recent register
or identify on that connection; every other connection has no entry.  When no
send fails, these are the connections registered and not yet unregistered. -/
theorem registry_snapshot (lib : StdLib) (serial : Bool) (calls : List Call)
    (hwf : identifyOnPresent calls = true) :
    ∃ w, runCalls lib (World.init serial) calls = some w ∧
      (getDevicesList w).Perm ((liveConns calls).filterMap fun c => lastWritten c calls) ∧
      (getDevicesList w).length = (liveConns calls).length ∧
      (∀ c, isPresent c calls = true →
        ∃ d, lastWritten c calls = some d ∧ w.devices.lookup c = some d) ∧
      (∀ c, isPresent c calls = false → w.devices.lookup c = none) ∧
      ((∀ call ∈ calls, ∀ x, call.fails x = false) →
        ∀ c, isPresent c calls = isRegistered c calls) := by
  obtain ⟨w, hw, hinv⟩ := runCalls_lookup lib serial calls.reverse hwf
  rw [List.reverse_reverse] at hw
  have hperm : (getDevicesList w).Perm
      ((liveConns calls).filterMap fun c => lastWritten c calls) := by
    have hp := values_perm w.devices (calls.map Call.conn).dedup
      (fun c => if isPresent c calls = true then lastWritten c calls else none)
      (List.nodup_dedup _) (fun c => (hinv c).1) (by
        intro c hc
        by_cases hr : isPresent c calls = true
        · have := presentRev_mem c calls.reverse hr
          rw [List.mem_dedup]
          simpa using this
        · simp only [if_neg hr] at hc
          exact absurd hc (by simp))
    refine hp.trans (List.Perm.of_eq ?_)
    unfold liveConns
    rw [List.filterMap_filter]
  have hsome : ∀ c, isPresent c calls = true →
      ∃ d, lastWritten c calls = some d ∧ w.devices.lookup c = some d := by
    intro c hr
    obtain ⟨d, hd⟩ := Option.isSome_iff_exists.mp ((hinv c).2.2 hr)
    refine ⟨d, hd, ?_⟩
    rw [(hinv c).1, if_pos (show presentRev c calls.reverse = true from hr)]
    exact hd
  refine ⟨w, hw, hperm, ?_, hsome, ?_, ?_⟩
  · rw [hperm.length_eq, List.length_filterMap_eq_countP, List.countP_eq_length]
    intro c hc
    unfold liveConns at hc
    obtain ⟨d, hd, _⟩ := hsome c (List.mem_filter.mp hc).2
    rw [hd]; rfl
  · intro c hr
    rw [(hinv c).1]
    have : ¬ presentRev c calls.reverse = true := by
      unfold isPresent at hr
      rw [hr]; simp
    rw [if_neg this]
  · intro hnf c
    exact presentRev_eq_registeredRev c calls.reverse
      (fun call hc => hnf call (List.mem_reverse.mp hc))

/-! ## C3: appending to the log and reading it back -/

theorem splitLinesLoop_append (a b : List Char) :
    ∀ (lines : List String) (line : String),
      splitLinesLoop (a ++ b) lines line =
        splitLinesLoop b (splitLinesLoop a lines line).1 (splitLinesLoop a lines line).2 := by
  induction a with
  | nil => intro lines line; rfl
  | cons r a ih =>
    intro lines line
    by_cases hr : r = '\n'
    · rw [List.cons_append, splitLinesLoop, if_pos hr, ih, splitLinesLoop, if_pos hr]
    · rw [List.cons_append, splitLinesLoop, if_neg hr, ih, splitLinesLoop, if_neg hr]

theorem splitLinesLoop_no_newline (p : List Char) :
    ∀ (lines : List String) (line : String), '\n' ∉ p →
      splitLinesLoop p lines line = (lines, line ++ String.mk p) := by
  induction p with
  | nil =>
    intro lines line _
    have : line ++ String.mk [] = line := by
      apply String.ext; simp
    simp [splitLinesLoop, this]
  | cons r p ih =>
    intro lines line h
    have hr : r ≠ '\n' := fun e => h (by simp [e])
    have hp : '\n' ∉ p := fun e => h (by simp [e])
    have : line ++ String.mk [r] ++ String.mk p = line ++ String.mk (r :: p) := by
      apply String.ext; simp
    rw [splitLinesLoop, if_neg hr, ih _ _ hp, this]

theorem splitLinesLoop_newline (lines : List String) (line : String) :
    splitLinesLoop ['\n'] lines line = (lines ++ [line], "") := by
  simp [splitLinesLoop]

/-- A text that is empty or ends with a newline leaves the loop of `splitLines`
with an empty current line. -/
theorem splitLinesLoop_terminated (pre : List Char)
    (h : pre = [] ∨ pre.getLast? = some '\n') :
    ∃ lines, splitLinesLoop pre [] "" = (lines, "") := by
  rcases h with h | h
  · subst h; exact ⟨[], rfl⟩
  · obtain ⟨init, hinit⟩ : ∃ init, pre = init ++ ['\n'] := by
      rcases List.eq_nil_or_concat pre with h0 | ⟨init, x, hx⟩
      · subst h0; simp at h
      · rw [hx] at h
        simp at h
        exact ⟨init, by rw [hx, h]; simp⟩
    rw [hinit, splitLinesLoop_append, splitLinesLoop_newline]
    exact ⟨_, rfl⟩

theorem readLine_append (lib : StdLib) (logs : List MedicationEvent) (line : String) :
    readLine lib logs line = logs ++ readLine lib [] line := by
  unfold readLine
  by_cases h : line = ""
  · simp [h]
  · simp only [if_neg h]
    cases lib.unmarshal line <;> simp

theorem foldl_readLine_append (lib : StdLib) (l : List String) :
    ∀ logs : List MedicationEvent,
      l.foldl (readLine lib) logs = logs ++ l.foldl (readLine lib) [] := by
  induction l with
  | nil => intro logs; simp
  | cons x l ih =>
    intro logs
    rw [List.foldl_cons, List.foldl_cons, ih (readLine lib logs x), ih (readLine lib [] x),
      readLine_append lib logs x, List.append_assoc]

theorem readLine_of_unmarshal (lib : StdLib) (j : String) (E : MedicationEvent)
    (he : j ≠ "") (hu : lib.unmarshal j = some E) : readLine lib [] j = [E] := by
  unfold readLine
  rw [if_neg he, hu]
  rfl

theorem splitLinesLoop_lines (u : List Char) :
    ∀ (lines : List String) (line : String),
      splitLinesLoop u lines line =
        (lines ++ (splitLinesLoop u [] line).1, (splitLinesLoop u [] line).2) := by
  induction u with
  | nil => intro lines line; simp [splitLinesLoop]
  | cons r u ih =>
    intro lines line
    by_cases hr : r = '\n'
    · rw [splitLinesLoop, if_pos hr, ih, splitLinesLoop, if_pos hr, ih ([] ++ [line])]
      simp
    · rw [splitLinesLoop, if_neg hr, ih, splitLinesLoop, if_neg hr]

/-- Reading a text that is empty or ends with a newline, followed by more
text, is reading the two texts one after the other. -/
theorem read_append (lib : StdLib) (t u : String)
    (ht : t.data = [] ∨ t.data.getLast? = some '\n') :
    (splitLines (t ++ u)).foldl (readLine lib) [] =
      (splitLines t).foldl (readLine lib) [] ++ (splitLines u).foldl (readLine lib) [] := by
  obtain ⟨L, hL⟩ := splitLinesLoop_terminated t.data ht
  have h1 : splitLines t = L := by simp [splitLines, hL]
  have h2 : splitLines (t ++ u) = L ++ splitLines u := by
    unfold splitLines
    rw [String.data_append, splitLinesLoop_append, hL, splitLinesLoop_lines]
    by_cases hl : (splitLinesLoop u.data [] "").2 = ""
    · simp [hl]
    · simp [hl]
  rw [h1, h2, List.foldl_append, foldl_readLine_append]

/-- A line without newline followed by a newline is read as that line. -/
theorem read_single_line (lib : StdLib) (p : String) (hp : '\n' ∉ p.data) :
    (splitLines (p ++ "\n")).foldl (readLine lib) [] = readLine lib [] p := by
  unfold splitLines
  have hnl : ("\n" : String).data = ['\n'] := rfl
  rw [String.data_append, hnl, splitLinesLoop_append, splitLinesLoop_no_newline _ _ _ hp,
    splitLinesLoop_newline]
  have h1 : ("" : String) ++ String.mk p.data = p := by
    apply String.ext; simp
  simp [h1]

/-- Every text is a text that is empty or ends with a newline, followed by a
last line without newline. -/
theorem exists_terminated_split (l : List Char) :
    ∃ pre part : List Char, l = pre ++ part ∧ (pre = [] ∨ pre.getLast? = some '\n') ∧
      '\n' ∉ part ∧ ((l = [] ∨ l.getLast? = some '\n') → part = []) := by
  induction l using List.reverseRecOn with
  | nil => exact ⟨[], [], rfl, Or.inl rfl, by simp, fun _ => rfl⟩
  | append_singleton init x ih =>
    obtain ⟨pre, part, hsplit, hpre, hpart, _⟩ := ih
    by_cases hx : x = '\n'
    · refine ⟨init ++ [x], [], by simp, Or.inr (by simp [hx]), by simp, fun _ => rfl⟩
    · refine ⟨pre, part ++ [x], by rw [hsplit, List.append_assoc], hpre, ?_, ?_⟩
      · simp only [List.mem_append, List.mem_singleton, not_or]
        exact ⟨hpart, fun e => hx e.symm⟩
      · intro h
        rcases h with h | h
        · simp at h
        · simp at h
          exact absurd h hx

/-- C3, as amended. Let the log file hold any text (a missing file counts as
the empty text); the text is `pre ++ part`, where `pre` is empty or ends with a
newline and `part` is the last line, not terminated by a newline, and `part` is
empty when the file is missing, empty or ends with a newline.  After
`logMedicationEvent(E1)` and `logMedicationEvent(E2)` have appended the records
`j1` and `j2`, `readLogFile()` returns the events of `pre`, in their order, then
the events of the text `part ++ j1 ++ "\n"`, then the events of the text
`j2 ++ "\n"`.  For records without a newline these are what the joined line
`part ++ j1` and the line `j2` deserialize to.  When `part` is empty and the
records contain no newline, are non-empty and deserialize to `E1` and `E2`, the
result is the sequence readable before, followed by `E1`, then `E2`. -/
theorem log_append_then_read (lib : StdLib) (w : World) (E1 E2 : MedicationEvent)
    (j1 j2 : String)
    (hm1 : lib.marshal E1 = some j1) (hm2 : lib.marshal E2 = some j2) :
    ∃ pre part : String,
      w.logFile.getD "" = pre ++ part
      ∧ (pre = "" ∨ pre.data.getLast? = some '\n') ∧ '\n' ∉ part.data
      ∧ ((w.logFile.getD "" = "" ∨ (w.logFile.getD "").data.getLast? = some '\n') → part = "")
      ∧ readLogFile lib w =
          readLogFile lib { w with logFile := some pre } ++ readLine lib [] part
      ∧ readLogFile lib (logMedicationEvent lib (logMedicationEvent lib w E1) E2) =
          readLogFile lib { w with logFile := some pre }
            ++ readLogFile lib { w with logFile := some (part ++ j1 ++ "\n") }
            ++ readLogFile lib { w with logFile := some (j2 ++ "\n") }
      ∧ ('\n' ∉ j1.data →
          readLogFile lib { w with logFile := some (part ++ j1 ++ "\n") } =
            readLine lib [] (part ++ j1))
      ∧ ('\n' ∉ j2.data →
          readLogFile lib { w with logFile := some (j2 ++ "\n") } = readLine lib [] j2)
      ∧ (part = "" → '\n' ∉ j1.data → '\n' ∉ j2.data → j1 ≠ "" → j2 ≠ "" →
          lib.unmarshal j1 = some E1 → lib.unmarshal j2 = some E2 →
          readLogFile lib (logMedicationEvent lib (logMedicationEvent lib w E1) E2) =
            readLogFile lib w ++ [E1, E2]) := by
  obtain ⟨pre, part, hsplit, hpre, hpart, hempty⟩ :=
    exists_terminated_split (w.logFile.getD "").data
  have hfile : w.logFile.getD "" = String.mk pre ++ String.mk part := by
    apply String.ext; simpa using hsplit
  have hread : ∀ s : String, readLogFile lib { w with logFile := some s } =
      (splitLines s).foldl (readLine lib) [] := fun s => rfl
  have hbefore : readLogFile lib w =
      (splitLines (String.mk pre)).foldl (readLine lib) [] ++ readLine lib [] (String.mk part) := by
    have hsl : (splitLines (String.mk pre ++ String.mk part)).foldl (readLine lib) [] =
        (splitLines (String.mk pre)).foldl (readLine lib) [] ++
          readLine lib [] (String.mk part) := by
      rw [read_append lib _ _ hpre]
      congr 1
      unfold splitLines
      rw [splitLinesLoop_no_newline _ _ _ hpart]
      have hp : ("" : String) ++ String.mk (String.mk part).data = String.mk part := by
        apply String.ext; simp
      simp only [hp]
      by_cases hpe : String.mk part = ""
      · rw [hpe]; simp [readLine]
      · simp [hpe]
    cases hlf : w.logFile with
    | none =>
      rw [hlf] at hfile
      simp only [Option.getD_none] at hfile
      rw [← hfile] at hsl
      rw [← hsl]
      simp [readLogFile, hlf, splitLines, splitLinesLoop]
    | some c =>
      rw [hlf] at hfile
      simp only [Option.getD_some] at hfile
      simp only [readLogFile, hlf, hfile]
      exact hsl
  have hafter : readLogFile lib (logMedicationEvent lib (logMedicationEvent lib w E1) E2) =
      (splitLines (String.mk pre)).foldl (readLine lib) []
        ++ (splitLines (String.mk part ++ j1 ++ "\n")).foldl (readLine lib) []
        ++ (splitLines (j2 ++ "\n")).foldl (readLine lib) [] := by
    have hfile2 : (logMedicationEvent lib (logMedicationEvent lib w E1) E2).logFile =
        some ((String.mk pre ++ (String.mk part ++ j1 ++ "\n")) ++ (j2 ++ "\n")) := by
      simp only [logMedicationEvent, hm1, hm2, Option.getD_some, hfile, Option.some.injEq]
      apply String.ext
      simp [String.data_append]
    simp only [readLogFile, hfile2]
    have hterm : (String.mk pre ++ (String.mk part ++ j1 ++ "\n")).data = [] ∨
        (String.mk pre ++ (String.mk part ++ j1 ++ "\n")).data.getLast? = some '\n' := by
      right
      have hnl : ("\n" : String).data = ['\n'] := rfl
      simp [String.data_append, hnl]
    rw [read_append lib _ _ hterm, read_append lib _ _ hpre]
  refine ⟨String.mk pre, String.mk part, hfile, ?_, hpart, ?_, ?_, ?_, ?_, ?_, ?_⟩
  · rcases hpre with h | h
    · left; rw [h]
    · right; exact h
  · intro h
    have : part = [] := by
      apply hempty
      rcases h with h | h
      · left; rw [h]
      · right; exact h
    rw [this]
  · rw [hbefore, hread]
  · rw [hafter, hread, hread, hread]
  · intro hn1
    rw [hread]
    apply read_single_line
    simp only [String.data_append, List.mem_append, not_or]
    exact ⟨hpart, hn1⟩
  · intro hn2
    rw [hread]
    exact read_single_line lib j2 hn2
  · intro hpe hn1 hn2 he1 he2 hu1 hu2
    rw [hafter, hbefore, hpe]
    have h3 : ("" : String) ++ j1 = j1 := by apply String.ext; simp
    rw [h3, read_single_line lib j1 hn1, read_single_line lib j2 hn2,
      readLine_of_unmarshal lib j1 E1 he1 hu1, readLine_of_unmarshal lib j2 E2 he2 hu2]
    simp [readLine]

set_option maxRecDepth 100000 in
/-- C3, counterexample. The log file ends with a record cut off in the middle.
Both appends write their record, and both records read back on their own, yet
`readLogFile()` afterwards returns the earlier event and `eventB` only: the record
of `eventA` was joined to the partial line, which does not deserialize. -/
theorem truncated_line_swallows_event :
    exampleLib.marshal eventA = some recordA ∧ exampleLib.marshal eventB = some recordB
      ∧ exampleLib.unmarshal recordA = some eventA ∧ exampleLib.unmarshal recordB = some eventB
      ∧ readLogFile exampleLib crashedWorld = [eventC]
      ∧ (logMedicationEvent exampleLib (logMedicationEvent exampleLib crashedWorld eventA)
          eventB).logFile = some (truncatedLog ++ recordA ++ "\n" ++ recordB ++ "\n")
      ∧ readLogFile exampleLib
          (logMedicationEvent exampleLib (logMedicationEvent exampleLib crashedWorld eventA)
            eventB) = [eventC, eventB]
      ∧ eventA ∉ readLogFile exampleLib
          (logMedicationEvent exampleLib (logMedicationEvent exampleLib crashedWorld eventA)
            eventB) := by
  refine ⟨by decide, by decide, by decide, by decide, by decide, by decide, by decide,
    by decide⟩

/-! ## C6 and C7: the `device_connected` and `simulation` branches -/

/-- C7. For every registry state and every sender `conn`, whatever device is
registered for it, handling a `simulation` message with medication `m` calls
`logMedicationEvent` with an event of device id `simulation` and medication `m`
(the log file becomes what that call writes), and sends to every key of `clients`
one `medication_taken` message with device id `simulation` and medication `m`; the
result does not depend on the sender. -/
theorem simulation_attribution (lib : StdLib) (w : World) (conn : Conn)
    (msg : WebSocketMessage) (unix : Int) (now : Time) (fails : Conn → Bool)
    (hty : msg.Type_ = "simulation") :
    ∃ w1, handleMessage lib w conn msg unix now fails = some w1
      ∧ w1.logFile = (logMedicationEvent lib w
          { Type_ := "medication_taken", Medication := msg.Medication, Timestamp := now,
            DeviceID := "simulation", ServerTime := now }).logFile
      ∧ (∀ data, lib.marshal
            { Type_ := "medication_taken", Medication := msg.Medication, Timestamp := now,
              DeviceID := "simulation", ServerTime := now } = some data →
          w1.logFile = some (w.logFile.getD "" ++ data ++ "\n"))
      ∧ writesSince w w1 = w.clients.keys.map (fun c =>
          { conn := c
            message :=
              { Type_ := "medication_taken", Medication := msg.Medication,
                Timestamp := lib.formatRFC3339 now, DeviceID := "simulation" }
            ok := !fails c })
      ∧ (∀ r ∈ writesSince w w1, r.message.Type_ = "medication_taken" ∧
          r.message.DeviceID = "simulation" ∧ r.message.Medication = msg.Medication)
      ∧ (∀ sender, handleMessage lib w sender msg unix now fails = some w1) := by
  have hne1 : ¬ msg.Type_ = "device_connected" := by rw [hty]; decide
  have hne2 : ¬ msg.Type_ = "medication_taken" := by rw [hty]; decide
  have hall : ∀ sender, handleMessage lib w sender msg unix now fails =
      some (broadcastMedicationTaken lib w msg.Medication "simulation" now fails) := by
    intro sender
    unfold handleMessage
    rw [if_neg hne1, if_neg hne2, if_pos hty]
  have hwrites : writesSince w
      (broadcastMedicationTaken lib w msg.Medication "simulation" now fails) =
      w.clients.keys.map (fun c =>
          { conn := c
            message :=
              { Type_ := "medication_taken", Medication := msg.Medication,
                Timestamp := lib.formatRFC3339 now, DeviceID := "simulation" }
            ok := !fails c }) := by
    unfold broadcastMedicationTaken
    have hw : ∀ e, (logMedicationEvent lib w e).writes = w.writes ∧
        (logMedicationEvent lib w e).clients = w.clients := by
      intro e
      unfold logMedicationEvent
      cases lib.marshal e <;> simp
    have := broadcastMessage_writes (logMedicationEvent lib w
      { Type_ := "medication_taken", Medication := msg.Medication, Timestamp := now,
        DeviceID := "simulation", ServerTime := now })
      { Type_ := "medication_taken", Medication := msg.Medication,
        Timestamp := lib.formatRFC3339 now, DeviceID := "simulation" } fails
    unfold writesSince at this ⊢
    rw [(hw _).1, (hw _).2] at this
    exact this
  have hlog : (broadcastMedicationTaken lib w msg.Medication "simulation" now fails).logFile =
      (logMedicationEvent lib w
          { Type_ := "medication_taken", Medication := msg.Medication, Timestamp := now,
            DeviceID := "simulation", ServerTime := now }).logFile := by
    unfold broadcastMedicationTaken
    rw [broadcastMessage_logFile]
  refine ⟨_, hall conn, hlog, ?_, hwrites, ?_, hall⟩
  · intro data hd
    rw [hlog]
    simp [logMedicationEvent, hd]
  · intro r hr
    rw [hwrites] at hr
    simp only [List.mem_map] at hr
    obtain ⟨c, _, rfl⟩ := hr
    exact ⟨rfl, rfl, rfl⟩

/-! ## C8, C9, C10: the life cycle of a connection -/

/-- C8, the code at the failing input. A client is accepted and the write of
`connection_status` fails: `handleWebSocket` closes the connection and returns
without removing it, so the closed connection keeps its entry in `devices` and in
`clients`, no message loop runs for it, and `getDevicesList()` still reports its
device. -/
theorem failed_accept_keeps_entry :
    1 ∈ afterFailedAccept.closed
      ∧ afterFailedAccept.devices.lookup 1 = some (placeholderDevice "10.0.0.1:5000" 100 100)
      ∧ afterFailedAccept.clients.lookup 1 = some true
      ∧ 1 ∉ afterFailedAccept.loops
      ∧ getDevicesList afterFailedAccept = [placeholderDevice "10.0.0.1:5000" 100 100] := by
  decide

/-- C10, the code at the failing input. Connections 1 and 2 are accepted and
both loops run.  The loop of connection 2 has read a `device_connected` message
and has not yet taken `clientsMutex`.  A broadcast (here for a `simulation`
message of connection 1) fails to write to connection 2 and prunes it.  The loop
of connection 2 has not exited, yet `devices` and `clients` have no entry for it.
When that loop now executes the `device_connected` branch with an empty ip,
`devices[conn].IP` dereferences a missing entry (result `none`); with an
announced ip the branch writes `devices[conn]` while `clients` has no such key. -/
theorem device_connected_after_prune :
    2 ∈ twoClients.loops ∧ twoClients.devices.lookup 2 ≠ none
      ∧ handleMessage exampleLib twoClients 1
          { Type_ := "simulation", Medication := "aspirin" } 102 102 (fun c => decide (c = 2))
          = some prunedWorld
      ∧ 2 ∈ prunedWorld.loops
      ∧ prunedWorld.devices.lookup 2 = none
      ∧ prunedWorld.clients.lookup 2 = none
      ∧ handleMessage exampleLib prunedWorld 2 { Type_ := "device_connected" } 103 103
          (fun _ => false) = none
      ∧ (identify prunedWorld 2 "esp-2" "10.0.0.9" 103 103).map
          (fun w => (w.devices.keys, w.clients.keys)) = some ([2, 1], [1]) := by
  refine ⟨by decide, by decide, rfl, by decide, by decide, by decide, rfl, by decide⟩

/-- C9, counterexample. Connection 1 has identified itself; its handler calls
`broadcastDeviceUpdate`, and `getDevicesList()` returns the one device.  Before
`broadcastMessage` takes the mutex, `handleWebSocket` inserts connection 2.  The
`device_update` message is then delivered, without any send failing, to both
connections, carrying a list of one device while the registry holds two. -/
theorem device_update_stale :
    identify (handleWebSocket (World.init false) 1 "10.0.0.1:5000" 100 100 true) 1 "arduino" ""
        101 101 = some oneDevice
      ∧ run oneDevice [Step.op (.register 2 "10.0.0.2:5000" 102 102)] = some lateJoin
      ∧ broadcastDeviceUpdateAfter oneDevice [Step.op (.register 2 "10.0.0.2:5000" 102 102)]
          (fun _ => false) = some staleDelivery
      ∧ (writesSince lateJoin staleDelivery).map
          (fun r => (r.conn, r.ok, r.message.Type_, r.message.Devices))
          = [(2, true, "device_update",
                some [identifiedDevice "arduino" "" "10.0.0.1:5000" 101 101]),
             (1, true, "device_update",
                some [identifiedDevice "arduino" "" "10.0.0.1:5000" 101 101])]
      ∧ getDevicesList lateJoin =
          [placeholderDevice "10.0.0.2:5000" 102 102,
           identifiedDevice "arduino" "" "10.0.0.1:5000" 101 101]
      ∧ getDevicesList staleDelivery = getDevicesList lateJoin
      ∧ ¬ List.Perm [identifiedDevice "arduino" "" "10.0.0.1:5000" 101 101]
          (getDevicesList staleDelivery) := by
  refine ⟨rfl, rfl, rfl, by decide, by decide, by decide, ?_⟩
  intro h
  have := h.length_eq
  revert this
  decide

/-- C9, as amended. The list carried by a `device_update` message is the list
that `getDevicesList()` returned in the state `w` where it was called: in
iteration order, the device stored in `devices` for each of its keys, so that a
device is in the list exactly when it is stored for some connection and the list
has one element per key.  The message is delivered to the connections that are
keys of `clients` in the state `w1` reached after the steps `between` of other
goroutines, whatever these steps are.  The same holds for the
`connection_status` message of `handleWebSocket`.  When no step occurs in
between, the list is the contents of `devices` at the start of the delivery. -/
theorem update_carries_snapshot (w0 : World) (conn : Conn) (clientIP : String) (unix : Int)
    (now : Time) (before between : List Step) (writeOk : Bool) (fails : Conn → Bool)
    (w w1 : World)
    (h1 : run (register w0 conn clientIP unix now) before = some w)
    (h2 : run w between = some w1) :
    (∃ w2, broadcastDeviceUpdateAfter w between fails = some w2
      ∧ (writesSince w1 w2).map (fun r => (r.conn, r.ok, r.message.Type_, r.message.Devices)) =
          w1.clients.keys.map (fun c => (c, !fails c, "device_update",
            some (w.devices.keys.filterMap fun k => w.devices.lookup k))))
    ∧ (∃ w2, handleWebSocketAfter w0 conn clientIP unix now before between writeOk = some w2
      ∧ (writesSince w1 w2).map (fun r => (r.conn, r.ok, r.message.Type_, r.message.Devices)) =
          [(conn, writeOk, "connection_status",
            some (w.devices.keys.filterMap fun k => w.devices.lookup k))])
    ∧ (∀ d, d ∈ (w.devices.keys.filterMap fun k => w.devices.lookup k) ↔
        ∃ c, w.devices.lookup c = some d)
    ∧ (w.devices.keys.filterMap fun k => w.devices.lookup k).length = w.devices.keys.length
    ∧ (between = [] →
        (w.devices.keys.filterMap fun k => w.devices.lookup k) =
          w1.devices.keys.filterMap fun k => w1.devices.lookup k) := by
  refine ⟨?_, ?_, ?_, ?_, ?_⟩
  · refine ⟨broadcastMessage w1 (deviceUpdateMessage w) fails, ?_, ?_⟩
    · unfold broadcastDeviceUpdateAfter
      rw [h2]
    · rw [broadcastMessage_writes, List.map_map, ← getDevicesList_eq_lookup]
      rfl
  · refine ⟨writeInitial w1 conn (connectionStatusMessage w) writeOk, ?_, ?_⟩
    · unfold handleWebSocketAfter
      rw [h1]
      simp only [h2]
    · rw [← getDevicesList_eq_lookup]
      unfold writesSince writeInitial connectionStatusMessage
      cases writeOk <;> simp
  · intro d
    rw [← getDevicesList_eq_lookup, mem_getDevicesList]
  · rw [← getDevicesList_eq_lookup]
    simp [getDevicesList, AList.keys, List.keys]
  · intro hb
    subst hb
    simp only [run, List.foldlM_nil, pure, Option.some.injEq] at h2
    rw [h2]

/-! ## Instances of the theorems that have hypotheses -/

/-- Instance of C1: two clients connect, the first identifies itself with empty
id and ip, the second disconnects; the snapshot is the one identified device. -/
theorem registry_snapshot_witness :
    identifyOnPresent exampleCalls = true ∧
      ∃ w, runCalls exampleLib (World.init false) exampleCalls = some w ∧
        (getDevicesList w).Perm
          [{ DeviceID := "device-102", IP := "10.0.0.1:5000", Type_ := "esp8266",
             ConnectedAt := 102 }] ∧
        (getDevicesList w).length = 1 :=
  ⟨by decide,
    match registry_snapshot exampleLib false exampleCalls (by decide) with
    | ⟨w, hrun, hperm, hlen, _, _, _⟩ =>
      ⟨w, hrun,
        (show ((liveConns exampleCalls).filterMap fun c => lastWritten c exampleCalls) =
          [{ DeviceID := "device-102", IP := "10.0.0.1:5000", Type_ := "esp8266",
             ConnectedAt := 102 }] by decide) ▸ hperm,
        (show (liveConns exampleCalls).length = 1 by decide) ▸ hlen⟩⟩

/-- Instance of C2: of two registered connections, the send to connection 2
fails. -/
theorem broadcast_single_failure_witness :
    2 ∈ twoClients.clients.keys
      ∧ (∀ c ∈ twoClients.clients.keys, decide (c = 2) = true ↔ c = 2)
      ∧ (writesSince twoClients
          (broadcastMessage twoClients { Type_ := "device_update" }
            (fun c => decide (c = 2)))).length = twoClients.clients.keys.length
      ∧ (broadcastMessage twoClients { Type_ := "device_update" }
          (fun c => decide (c = 2))).clients = twoClients.clients.erase 2
      ∧ (broadcastMessage twoClients { Type_ := "device_update" }
          (fun c => decide (c = 2))).devices = twoClients.devices.erase 2 :=
  have h := broadcast_single_failure twoClients { Type_ := "device_update" }
    (fun c => decide (c = 2)) 2 (by decide) (by decide)
  ⟨by decide, by decide, h.1, h.2.2.2.2.1, h.2.2.2.2.2.1⟩

set_option maxRecDepth 100000 in
/-- Instance of C3: the log ends with a newline, and the records of the two
events are written; the appended records are the lines read last. -/
theorem log_append_then_read_witness :
    exampleLib.marshal eventA = some recordA ∧ exampleLib.marshal eventB = some recordB
      ∧ ∃ pre part : String, loggedWorld.logFile.getD "" = pre ++ part
        ∧ readLogFile exampleLib
            (logMedicationEvent exampleLib (logMedicationEvent exampleLib loggedWorld eventA)
              eventB) =
          readLogFile exampleLib { loggedWorld with logFile := some pre }
            ++ readLogFile exampleLib { loggedWorld with logFile := some (part ++ recordA ++ "\n") }
            ++ readLogFile exampleLib { loggedWorld with logFile := some (recordB ++ "\n") }
        ∧ readLogFile exampleLib
            (logMedicationEvent exampleLib (logMedicationEvent exampleLib loggedWorld eventA)
              eventB) = [eventC, eventA, eventB] :=
  ⟨by decide, by decide,
    match log_append_then_read exampleLib loggedWorld eventA eventB recordA recordB
      (by decide) (by decide) with
    | ⟨pre, part, hsplit, _, _, _, _, hafter, _⟩ => ⟨pre, part, hsplit, hafter, by decide⟩⟩

/-- Instance of C7: the sender is registered with device id `arduino`. -/
theorem simulation_attribution_witness :
    (oneDevice.devices.lookup 1).map Device.DeviceID = some "arduino"
      ∧ ∃ w1, handleMessage exampleLib oneDevice 1
          { Type_ := "simulation", Medication := "aspirin" } 102 102 (fun _ => false) = some w1
        ∧ (writesSince oneDevice w1).map (fun r => (r.conn, r.message.DeviceID,
            r.message.Medication)) = [(1, "simulation", "aspirin")]
        ∧ w1.logFile = some
            ("\x7b\"type\":\"medication_taken\",\"medication\":\"aspirin\",\"timestamp\":\"102\"," ++
             "\"deviceId\":\"simulation\",\"serverTime\":\"102\"\x7d\n") :=
  ⟨by decide,
    match simulation_attribution exampleLib oneDevice 1
      { Type_ := "simulation", Medication := "aspirin" } 102 102 (fun _ => false) rfl with
    | ⟨w1, hrun, _, hlog, hwr, _, _⟩ =>
      ⟨w1, hrun, by rw [hwr]; decide,
        by
          rw [hlog ("\x7b\"type\":\"medication_taken\",\"medication\":\"aspirin\"," ++
            "\"timestamp\":\"102\",\"deviceId\":\"simulation\",\"serverTime\":\"102\"\x7d")
            (by decide)]
          decide⟩⟩

/-- Instance of C9: connection 2 is inserted and its `connection_status` list
is taken; connection 1 disconnects before the message is written, so the
message carries two devices while `devices` holds one. -/
theorem update_carries_snapshot_witness :
    run (register oneDevice 2 "10.0.0.2:5000" 102 102) [] = some lateJoin
      ∧ run lateJoin [Step.op (.unregister 1)] = some (unregister lateJoin 1).1
      ∧ (∃ w2, handleWebSocketAfter oneDevice 2 "10.0.0.2:5000" 102 102 []
            [Step.op (.unregister 1)] true = some w2
          ∧ (writesSince (unregister lateJoin 1).1 w2).map
              (fun r => (r.conn, r.ok, r.message.Type_, r.message.Devices)) =
            [(2, true, "connection_status",
              some [placeholderDevice "10.0.0.2:5000" 102 102,
                identifiedDevice "arduino" "" "10.0.0.1:5000" 101 101])])
      ∧ getDevicesList (unregister lateJoin 1).1 = [placeholderDevice "10.0.0.2:5000" 102 102] :=
  ⟨rfl, rfl,
    (show (lateJoin.devices.keys.filterMap fun k => lateJoin.devices.lookup k) =
        [placeholderDevice "10.0.0.2:5000" 102 102,
          identifiedDevice "arduino" "" "10.0.0.1:5000" 101 101] by decide) ▸
      (update_carries_snapshot oneDevice 2 "10.0.0.2:5000" 102 102 [] [Step.op (.unregister 1)]
        true (fun _ => false) lateJoin (unregister lateJoin 1).1 rfl rfl).2.1,
    by decide⟩

end MedTracker
